import Mathlib

/-!
# Arkanoid: a shallow embedding of `src/main.c`

The frame update of the game (`UpdateGameFrame` and everything it calls) is
embedded as pure functions on an explicit game state.

Modelling conventions:
* C `float` values are rationals, arithmetic is taken exactly.
* C `int` counters are unbounded integers (signed overflow is undefined in C).
* The `static` globals of `main.c` are the fields of `Game`.
* What the frame reads from raylib (keys, frame time) and from `rand()` is the
  explicit `FrameInput`.
* `PlaySound` appends to a log of played sounds, most recent first.
* The `bricks[5][5]` array is the list of its 25 entries in row-major order.
-/

namespace Arkanoid

/-! ## Constants (`#define`s of `main.c`) -/

def WIDTH : ℚ := 1024
def HEIGHT : ℚ := 768
def BAR_HEIGHT : ℚ := 20
def BAR_WIDTH : ℚ := 150
def BAR_SPEED : ℚ := 10
def INITIAL_BAR_Y : ℚ := HEIGHT - (HEIGHT * (1 / 10))
def BALL_RADIUS : ℚ := 10
def BALL_SPEED : ℚ := 4
def INITIAL_BALL_Y : ℚ := INITIAL_BAR_Y - BALL_RADIUS
def INITIAL_BALL_X : ℚ := WIDTH / 2
def ROWS_COUNT : Nat := 5
def COLS_COUNT : Nat := 5
def BRICK_WIDTH : ℚ := 100
def BRICK_HEIGHT : ℚ := 20
def BRICK_PADDING : ℚ := 25
def BRICKS_TOP_PADDING : ℚ := 80
def BRICKS_LEFT_PADDING : ℚ := (WIDTH - (BRICK_WIDTH + BRICK_PADDING) * (ROWS_COUNT : ℚ)) / 2
def MAX_PARTICLES : Nat := 200
def PARTICLE_LIFESPAN : ℚ := 1
def PARTICLE_RADIUS : ℚ := 3
def SPEED_INCREMENT : ℚ := 1
def GRAVITY : ℚ := 1 / 50

/-! ## Data model -/

structure Vector2 where
  x : ℚ
  y : ℚ
deriving DecidableEq

structure Rectangle where
  x : ℚ
  y : ℚ
  width : ℚ
  height : ℚ
deriving DecidableEq

structure Color where
  r : Nat
  g : Nat
  b : Nat
  a : Nat
deriving DecidableEq

structure Particle where
  position : Vector2
  velocity : Vector2
  color : Color
  radius : ℚ
  lifespan : ℚ
  fade : ℚ
  active : Bool
deriving DecidableEq

inductive GameState where
  | GameOver
  | Running
  | Init
deriving DecidableEq

structure Ball where
  position : Vector2
  velocity : Vector2
  radius : ℚ
  active : Bool
deriving DecidableEq

structure Brick where
  rect : Rectangle
  color : Color
  fade : ℚ
  active : Bool
deriving DecidableEq

/-- The four sound handles of `main.c`. -/
inductive Sound where
  | hitBarSound
  | destroyBrickSound
  | looseSound
  | resetSound
deriving DecidableEq

/-- The globals of `main.c`, plus the log of sounds handed to `PlaySound`. -/
structure Game where
  gameState : GameState
  particles : List Particle
  bricks : List Brick
  bar : Rectangle
  ball : Ball
  score : Int
  level : Int
  bricksLeft : Int
  speedIncrement : Int
  lives : Int
  sounds : List Sound
deriving DecidableEq

/-- What one frame reads from its environment: `IsKeyDown(KEY_LEFT)`,
`IsKeyDown(KEY_RIGHT)`, `IsKeyPressed(KEY_SPACE)`, `GetFrameTime()` and the
successive results of `rand()` (`rand k` is the result of the call number `k`
of the frame). -/
structure FrameInput where
  left : Bool
  right : Bool
  space : Bool
  frameTime : ℚ
  rand : Nat → Nat

/-! ## raylib -/

/-- Modelled from the spec: raylib's `CheckCollisionCircleRec` is not part of
the repository; this is the circle/rectangle intersection test the spec names
("ball circle intersects paddle rectangle"), written as raylib computes it. -/
def CheckCollisionCircleRec (center : Vector2) (radius : ℚ) (rec : Rectangle) : Bool :=
  let recCenterX := rec.x + rec.width / 2
  let recCenterY := rec.y + rec.height / 2
  let dx := |center.x - recCenterX|
  let dy := |center.y - recCenterY|
  if dx > rec.width / 2 + radius then false
  else if dy > rec.height / 2 + radius then false
  else if dx ≤ rec.width / 2 then true
  else if dy ≤ rec.height / 2 then true
  else
    decide ((dx - rec.width / 2) * (dx - rec.width / 2)
      + (dy - rec.height / 2) * (dy - rec.height / 2) ≤ radius * radius)

/-- The raylib colour `RED`. -/
def RED : Color := ⟨230, 41, 55, 255⟩

/-- The raylib colour `GREEN`. -/
def GREEN : Color := ⟨0, 228, 48, 255⟩

/-- `PlaySound(snd)`: the sound is logged. -/
def PlaySound (snd : Sound) (s : Game) : Game :=
  { s with sounds := snd :: s.sounds }

/-! ## C conversions -/

/-- The C conversion of a `float` to `int`: truncation toward zero. -/
def truncToInt (q : ℚ) : Int :=
  if 0 ≤ q then Int.floor q else Int.ceil q

/-- The C conversion of an `int` to `unsigned char`. -/
def toUChar (n : Int) : Nat :=
  (n % 256).toNat

/-! ## Particles -/

/-- The slot contents written by `SpawnParticles`; `r1` and `r2` are the two
results of `rand()`. -/
def newParticle (position : Vector2) (color : Color) (r1 r2 : Nat) : Particle :=
  { position := position
    velocity := ⟨((((r1 : Int) % 100 - 50 : Int) : ℚ)) / 10, ((((r2 : Int) % 100 - 50 : Int) : ℚ)) / 10⟩
    color := color
    radius := PARTICLE_RADIUS
    lifespan := PARTICLE_LIFESPAN
    fade := 1
    active := true }

/-- The inner loop of `SpawnParticles`: the first slot that is not active is
overwritten with `p` (`break`); `none` when the scan ends without one. -/
def claimSlot (p : Particle) : List Particle → Option (List Particle)
  | [] => none
  | q :: qs =>
    if q.active then (claimSlot p qs).map (fun r => q :: r)
    else some (p :: qs)

/-- The outer loop of `SpawnParticles`, `n` iterations left, `k` calls of
`rand()` made so far (`rand()` is called only once a free slot is found). -/
def spawnLoop (position : Vector2) (color : Color) (rand : Nat → Nat) :
    Nat → Nat → List Particle → List Particle
  | 0, _, ps => ps
  | n + 1, k, ps =>
    match claimSlot (newParticle position color (rand k) (rand (k + 1))) ps with
    | some ps1 => spawnLoop position color rand n (k + 2) ps1
    | none => spawnLoop position color rand n k ps

/-- `SpawnParticles(position, count, color)` on the pool. -/
def SpawnParticles (position : Vector2) (count : Int) (color : Color) (rand : Nat → Nat)
    (ps : List Particle) : List Particle :=
  spawnLoop position color rand count.toNat 0 ps

/-- `ResetParticles`. -/
def ResetParticles (s : Game) : Game :=
  { s with particles := s.particles.map (fun p => { p with active := false }) }

/-- The body of the loop of `UpdateParticles` on one slot. -/
def updateParticle (deltaTime : ℚ) (p : Particle) : Particle :=
  if p.active then
    let p1 := { p with position := ⟨p.position.x + p.velocity.x * deltaTime * 60,
                                    p.position.y + p.velocity.y * deltaTime * 60⟩ }
    let p2 := { p1 with velocity := ⟨p1.velocity.x, p1.velocity.y + GRAVITY * deltaTime * 60⟩ }
    let p3 := { p2 with lifespan := p2.lifespan - deltaTime, fade := p2.fade - 1 / 100 }
    if p3.lifespan ≤ 0 then { p3 with active := false } else p3
  else p

/-- `UpdateParticles`, with `deltaTime = GetFrameTime()`. -/
def UpdateParticles (deltaTime : ℚ) (s : Game) : Game :=
  { s with particles := s.particles.map (updateParticle deltaTime) }

/-! ## Bricks -/

/-- `ResetBricks`. -/
def ResetBricks (s : Game) : Game :=
  { s with bricks := s.bricks.map (fun b => { b with active := true }) }

/-- The body of the loop of `HandleBricksFade` on one brick. -/
def fadeBrick (b : Brick) : Brick :=
  if !b.active || decide (b.fade ≥ 1) then b else { b with fade := b.fade + 1 / 100 }

/-- `HandleBricksFade`. -/
def HandleBricksFade (s : Game) : Game :=
  { s with bricks := s.bricks.map fadeBrick }

/-- `FadeInBricks`. -/
def FadeInBricks (s : Game) : Game :=
  { s with bricks := s.bricks.map (fun b => if !b.active then b else { b with fade := 1 }) }

/-- `DestroyBrick(&bricks[k])`, `k` the row-major index of the brick. -/
def DestroyBrick (rand : Nat → Nat) (k : Nat) (s : Game) : Game :=
  match s.bricks[k]? with
  | none => s
  | some brick =>
    let s1 := { s with bricks := s.bricks.set k { brick with active := false, fade := 0 } }
    let s2 := { s1 with score := s1.score + 10, bricksLeft := s1.bricksLeft - 1 }
    let collisionPoint : Vector2 :=
      ⟨brick.rect.x + brick.rect.width / 2, brick.rect.y + brick.rect.height / 2⟩
    let s3 := { s2 with particles := SpawnParticles collisionPoint 20 brick.color rand s2.particles }
    PlaySound Sound.destroyBrickSound s3

/-- The scan of `HandleBricksCollision`: the row-major index (counted from
`k`) of the first brick that is active and collides with the ball. -/
def findHit (ball : Ball) : Nat → List Brick → Option Nat
  | _, [] => none
  | k, b :: bs =>
    if !b.active then findHit ball (k + 1) bs
    else if !CheckCollisionCircleRec ball.position ball.radius b.rect then findHit ball (k + 1) bs
    else some k

/-- The velocity of the ball after it hit `brick` (`HandleBricksCollision`,
from "Get brick boundaries" to the velocity adjustment). -/
def bounceOffBrick (ball : Ball) (brick : Brick) : Ball :=
  let ballLeft := ball.position.x - ball.radius
  let ballRight := ball.position.x + ball.radius
  let ballTop := ball.position.y - ball.radius
  let ballBottom := ball.position.y + ball.radius
  let brickLeft := brick.rect.x
  let brickRight := brick.rect.x + brick.rect.width
  let brickTop := brick.rect.y
  let brickBottom := brick.rect.y + brick.rect.height
  let overlapLeft := ballRight - brickLeft
  let overlapRight := brickRight - ballLeft
  let overlapTop := ballBottom - brickTop
  let overlapBottom := brickBottom - ballTop
  let minOverlap := min (min overlapLeft overlapRight) (min overlapTop overlapBottom)
  if minOverlap = overlapLeft ∨ minOverlap = overlapRight then
    { ball with velocity := ⟨ball.velocity.x * (-1), ball.velocity.y⟩ }
  else if minOverlap = overlapTop ∨ minOverlap = overlapBottom then
    { ball with velocity := ⟨ball.velocity.x, ball.velocity.y * (-1)⟩ }
  else ball

/-- `HandleBricksCollision`, with its return value. -/
def HandleBricksCollision (rand : Nat → Nat) (s : Game) : Game × Bool :=
  match findHit s.ball 0 s.bricks with
  | none => (s, false)
  | some k =>
    match s.bricks[k]? with
    | none => (s, false)
    | some brick => (DestroyBrick rand k { s with ball := bounceOffBrick s.ball brick }, true)

/-! ## Ball, paddle and borders -/

/-- `ResetBall`. -/
def ResetBall (s : Game) : Game :=
  { s with ball := { s.ball with position := ⟨INITIAL_BALL_X, INITIAL_BALL_Y⟩
                                 velocity := ⟨0, BALL_SPEED + (s.speedIncrement : ℚ)⟩ } }

/-- `ResetGame`. -/
def ResetGame (s : Game) : Game :=
  let s1 := { s with gameState := GameState.Init }
  let s2 := ResetParticles s1
  let s3 := ResetBall s2
  let s4 := ResetBricks s3
  let s5 := PlaySound Sound.resetSound s4
  let s6 := { s5 with bricksLeft := ((ROWS_COUNT * COLS_COUNT : Nat) : Int) }
  { s6 with ball := { s6.ball with active := true } }

/-- `CheckForNextLevel`; `speedIncrement += SPEED_INCREMENT` adds a `float`
to an `int` and converts back. -/
def CheckForNextLevel (s : Game) : Game :=
  if s.bricksLeft = 0 then
    let s1 := ResetGame s
    let s2 := { s1 with level := s1.level + 1 }
    { s2 with speedIncrement := truncToInt ((s2.speedIncrement : ℚ) + SPEED_INCREMENT) }
  else s

/-- `HandleBarCollision`. -/
def HandleBarCollision (s : Game) : Game :=
  if !CheckCollisionCircleRec s.ball.position s.ball.radius s.bar then s
  else
    let b1 := { s.ball with position := ⟨s.ball.position.x, INITIAL_BALL_Y⟩ }
    let b2 := { b1 with velocity := ⟨b1.velocity.x, b1.velocity.y * (-1)⟩ }
    let barCenter := s.bar.x + s.bar.width / 2
    let distanceFromCenter := b2.position.x - barCenter
    let b3 := { b2 with velocity := ⟨distanceFromCenter * (1 / 20), b2.velocity.y⟩ }
    PlaySound Sound.hitBarSound { s with ball := b3 }

/-- `HandleBottomCollision`. -/
def HandleBottomCollision (s : Game) : Game :=
  let s1 := PlaySound Sound.looseSound s
  if s1.lives > 1 then
    ResetGame { s1 with lives := s1.lives - 1 }
  else
    { s1 with ball := { s1.ball with active := false }, gameState := GameState.GameOver }

/-- The first three tests of `HandleBordersCollision`: the ball is put back
on the right, left and top border and its velocity reflected. -/
def bounceOffWalls (b0 : Ball) : Ball :=
  let b1 := if b0.position.x > WIDTH - BALL_RADIUS then
      { b0 with position := ⟨WIDTH - BALL_RADIUS, b0.position.y⟩
                velocity := ⟨b0.velocity.x * (-1), b0.velocity.y⟩ }
    else b0
  let b2 := if b1.position.x < BALL_RADIUS then
      { b1 with position := ⟨BALL_RADIUS, b1.position.y⟩
                velocity := ⟨b1.velocity.x * (-1), b1.velocity.y⟩ }
    else b1
  if b2.position.y < BALL_RADIUS then
    { b2 with position := ⟨b2.position.x, BALL_RADIUS⟩
              velocity := ⟨b2.velocity.x, b2.velocity.y * (-1)⟩ }
  else b2

/-- `HandleBordersCollision`, with its return value. -/
def HandleBordersCollision (s : Game) : Game × Bool :=
  let s1 := { s with ball := bounceOffWalls s.ball }
  if s1.ball.position.y > HEIGHT - BALL_RADIUS then
    (HandleBottomCollision s1, true)
  else
    (s1, false)

/-! ## Keys -/

/-- `HandleArrowKeysPressed`. -/
def HandleArrowKeysPressed (inp : FrameInput) (s : Game) : Game :=
  let s1 := if inp.left && decide (s.bar.x > 0) then
      { s with bar := { s.bar with x := s.bar.x - BAR_SPEED } }
    else s
  if inp.right && decide (s1.bar.x < WIDTH - s1.bar.width) then
    { s1 with bar := { s1.bar with x := s1.bar.x + BAR_SPEED } }
  else s1

/-- `HandleSpaceKeyPressed`. -/
def HandleSpaceKeyPressed (inp : FrameInput) (s : Game) : Game :=
  if inp.space then
    match s.gameState with
    | GameState.Init => { FadeInBricks s with gameState := GameState.Running }
    | GameState.Running => s
    | GameState.GameOver =>
      let s1 := ResetGame s
      { s1 with score := 0, speedIncrement := 0, level := 1, lives := 3 }
  else s

/-! ## The frame -/

/-- The last three statements of `UpdateGameFrame`: the ball moves. -/
def moveBall (s : Game) : Game :=
  let b1 := { s.ball with position := ⟨s.ball.position.x + s.ball.velocity.x, s.ball.position.y⟩ }
  let b2 := { b1 with position := ⟨b1.position.x, b1.position.y - b1.velocity.y⟩ }
  { s with ball := { b2 with velocity := ⟨b2.velocity.x, b2.velocity.y + GRAVITY⟩ } }

/-- The `if (gameState == Running)` block of `UpdateGameFrame`. -/
def runningFrame (inp : FrameInput) (s : Game) : Game :=
  let s1 := UpdateParticles inp.frameTime s
  let r := HandleBordersCollision s1
  if r.2 then r.1
  else
    let s2 := HandleBarCollision r.1
    let h := HandleBricksCollision inp.rand s2
    if h.2 then CheckForNextLevel h.1
    else moveBall h.1

/-- `UpdateGameFrame`. -/
def UpdateGameFrame (inp : FrameInput) (s : Game) : Game :=
  let s1 := HandleArrowKeysPressed inp s
  let s2 := HandleSpaceKeyPressed inp s1
  let s3 := if s2.gameState = GameState.Init then HandleBricksFade s2 else s2
  if s3.gameState = GameState.Running then runningFrame inp s3 else s3

/-! ## Initialisation -/

/-- `LerpColor`. -/
def LerpColor (startColor endColor : Color) (t : ℚ) : Color :=
  { r := toUChar (truncToInt ((startColor.r : ℚ) + t * (((endColor.r : Int) - (startColor.r : Int) : Int) : ℚ)))
    g := toUChar (truncToInt ((startColor.g : ℚ) + t * (((endColor.g : Int) - (startColor.g : Int) : Int) : ℚ)))
    b := toUChar (truncToInt ((startColor.b : ℚ) + t * (((endColor.b : Int) - (startColor.b : Int) : Int) : ℚ)))
    a := toUChar (truncToInt ((startColor.a : ℚ) + t * (((endColor.a : Int) - (startColor.a : Int) : Int) : ℚ))) }

/-- The brick that `InitBricks` writes at row `i`, column `j`. -/
def initBrick (i j : Nat) : Brick :=
  let rowFactor : ℚ := (i : ℚ) / ((ROWS_COUNT : ℚ) - 1)
  let colFactor : ℚ := (j : ℚ) / ((COLS_COUNT : ℚ) - 1)
  let start := LerpColor RED GREEN rowFactor
  let stop := LerpColor RED GREEN colFactor
  let brickColor := LerpColor start stop (1 / 5)
  { rect := { x := (j : ℚ) * (BRICK_WIDTH + BRICK_PADDING) + BRICKS_LEFT_PADDING
              y := (i : ℚ) * (BRICK_HEIGHT + BRICK_PADDING) + BRICKS_TOP_PADDING
              width := BRICK_WIDTH
              height := BRICK_HEIGHT }
    color := brickColor
    fade := 0
    active := true }

/-- `InitBricks`: the grid in row-major order. -/
def InitBricks : List Brick :=
  (List.range ROWS_COUNT).flatMap (fun i => (List.range COLS_COUNT).map (fun j => initBrick i j))

/-- A slot of the zero-initialised `particles` array after the loop of
`InitGame` has cleared its `active` flag. -/
def zeroParticle : Particle :=
  { position := ⟨0, 0⟩, velocity := ⟨0, 0⟩, color := ⟨0, 0, 0, 0⟩
    radius := 0, lifespan := 0, fade := 0, active := false }

/-- The state when `InitGame` returns: the initialisers of the globals and the
assignments of `InitGame`. -/
def InitGame : Game :=
  { gameState := GameState.Init
    particles := List.replicate MAX_PARTICLES zeroParticle
    bricks := InitBricks
    bar := { x := WIDTH / 2 - BAR_WIDTH / 2, y := INITIAL_BAR_Y, width := BAR_WIDTH, height := BAR_HEIGHT }
    ball := { position := ⟨INITIAL_BALL_X, INITIAL_BALL_Y⟩, velocity := ⟨0, BALL_SPEED⟩
              radius := BALL_RADIUS, active := true }
    score := 0
    level := 1
    bricksLeft := ((ROWS_COUNT * COLS_COUNT : Nat) : Int)
    speedIncrement := 0
    lives := 3
    sounds := [] }

/-! ## Runs of the game -/

/-- The main loop: one `UpdateGameFrame` per input, first input first. -/
def runFrames : List FrameInput → Game → Game
  | [], s => s
  | inp :: rest, s => runFrames rest (UpdateGameFrame inp s)

/-- The states the program can be in between two frames. -/
inductive Reachable : Game → Prop where
  | init : Reachable InitGame
  | frame (inp : FrameInput) (s : Game) : Reachable s → Reachable (UpdateGameFrame inp s)

/-! ## Counters and state predicates -/

/-- Number of bricks of the grid whose `active` flag is set. -/
def activeBricks (s : Game) : Nat :=
  s.bricks.countP (fun b => b.active)

/-- The counter `bricksLeft` agrees with the grid of 25 bricks. -/
def bricksCounted (s : Game) : Prop :=
  s.bricks.length = ROWS_COUNT * COLS_COUNT ∧ s.bricksLeft = (activeBricks s : Int)

/-- Number of calls of `DestroyBrick` so far: each call plays
`destroyBrickSound` once and nothing else plays it. -/
def destroyCalls (s : Game) : Nat :=
  s.sounds.count Sound.destroyBrickSound

/-- The grid of `u` is the grid of `t`, or that grid with every brick
reactivated, and `DestroyBrick` was not called in between. -/
def sameOrReset (t u : Game) : Prop :=
  destroyCalls u = destroyCalls t ∧
    (u.bricks = t.bricks ∨ u.bricks = t.bricks.map (fun b => { b with active := true }))

/-- The lives counter is between 1 and 3, and it is 1 when the game is over. -/
def livesOk (s : Game) : Prop :=
  1 ≤ s.lives ∧ s.lives ≤ 3 ∧ (s.gameState = GameState.GameOver → s.lives = 1)

/-- The ball centre lies in `[BALL_RADIUS, WIDTH - BALL_RADIUS]` horizontally
and `[BALL_RADIUS, HEIGHT - BALL_RADIUS]` vertically. -/
def inBox (p : Vector2) : Prop :=
  BALL_RADIUS ≤ p.x ∧ p.x ≤ WIDTH - BALL_RADIUS ∧ BALL_RADIUS ≤ p.y ∧ p.y ≤ HEIGHT - BALL_RADIUS

instance inBoxDecidable (p : Vector2) : Decidable (inBox p) := by
  unfold inBox
  infer_instance

/-- Number of slots of the pool whose `active` flag is set. -/
def activeParticles (ps : List Particle) : Nat :=
  ps.countP (fun p => p.active)

/-- Number of slots of the pool whose `active` flag is clear. -/
def freeSlots (ps : List Particle) : Nat :=
  ps.countP (fun p => !p.active)

/-- The pool in which the first `n` free slots of `ps` are claimed, the
claim number `i` (counted from zero) with the results `rand (k + 2 * i)` and
`rand (k + 2 * i + 1)` of `rand()`. -/
def fillFree (position : Vector2) (color : Color) (rand : Nat → Nat) :
    Nat → Nat → List Particle → List Particle
  | _, _, [] => []
  | n, k, q :: qs =>
    if q.active then q :: fillFree position color rand n k qs
    else
      match n with
      | 0 => q :: qs
      | m + 1 => newParticle position color (rand k) (rand (k + 1))
          :: fillFree position color rand m (k + 2) qs

/-- In `Init` state the ball is at its initial position. -/
def ballPlaced (s : Game) : Prop :=
  s.gameState = GameState.Init → s.ball.position = ⟨INITIAL_BALL_X, INITIAL_BALL_Y⟩

/-- The brick is active and its rectangle intersects the ball circle: the two
tests of the scan of `HandleBricksCollision`. -/
def brickIsHit (ball : Ball) (b : Brick) : Bool :=
  b.active && CheckCollisionCircleRec ball.position ball.radius b.rect

/-- `overlapLeft` of `HandleBricksCollision`: `ballRight - brickLeft`. -/
def overlapLeft (ball : Ball) (b : Brick) : ℚ :=
  (ball.position.x + ball.radius) - b.rect.x

/-- `overlapRight` of `HandleBricksCollision`: `brickRight - ballLeft`. -/
def overlapRight (ball : Ball) (b : Brick) : ℚ :=
  (b.rect.x + b.rect.width) - (ball.position.x - ball.radius)

/-- `overlapTop` of `HandleBricksCollision`: `ballBottom - brickTop`. -/
def overlapTop (ball : Ball) (b : Brick) : ℚ :=
  (ball.position.y + ball.radius) - b.rect.y

/-- `overlapBottom` of `HandleBricksCollision`: `brickBottom - ballTop`. -/
def overlapBottom (ball : Ball) (b : Brick) : ℚ :=
  (b.rect.y + b.rect.height) - (ball.position.y - ball.radius)

/-- The smallest of the four overlaps is the left or the right one. -/
def sideIsNearest (ball : Ball) (b : Brick) : Prop :=
  min (min (overlapLeft ball b) (overlapRight ball b)) (min (overlapTop ball b) (overlapBottom ball b))
      = overlapLeft ball b ∨
  min (min (overlapLeft ball b) (overlapRight ball b)) (min (overlapTop ball b) (overlapBottom ball b))
      = overlapRight ball b

/-- Two states agree on everything except the particle pool (and the log of
played sounds, which is not a variable of the program): game state, score,
level, lives, speedIncrement, bricksLeft, ball, paddle and bricks. -/
def sameButParticles (s t : Game) : Prop :=
  s.gameState = t.gameState ∧ s.score = t.score ∧ s.level = t.level ∧ s.lives = t.lives ∧
    s.speedIncrement = t.speedIncrement ∧ s.bricksLeft = t.bricksLeft ∧ s.ball = t.ball ∧
    s.bar = t.bar ∧ s.bricks = t.bricks

/-- Two frame inputs agree on the keys. -/
def sameKeys (a b : FrameInput) : Prop :=
  a.left = b.left ∧ a.right = b.right ∧ a.space = b.space

/-- The state without its particle pool and sound log. -/
def core (s : Game) : Game :=
  { s with particles := [], sounds := [] }

/-- The fade of the brick is one of `0, 1/100, 2/100, ..., 1`. -/
def fadeOk (b : Brick) : Prop :=
  ∃ k : Nat, k ≤ 100 ∧ b.fade = (k : ℚ) / 100

/-- The level is at least 1 and `speedIncrement` is the level minus 1. -/
def levelOk (s : Game) : Prop :=
  1 ≤ s.level ∧ s.speedIncrement = s.level - 1

/-- The states reachable from `InitGame` by frames whose frame time is at
least `d`. -/
inductive ReachableAtLeast (d : ℚ) : Game → Prop where
  | init : ReachableAtLeast d InitGame
  | frame (inp : FrameInput) (s : Game) : d ≤ inp.frameTime → ReachableAtLeast d s →
      ReachableAtLeast d (UpdateGameFrame inp s)

/-- The state of a frame when the `if (gameState == Running)` test of
`UpdateGameFrame` is reached: keys handled, bricks faded in `Init`. -/
def afterKeys (inp : FrameInput) (s : Game) : Game :=
  let s2 := HandleSpaceKeyPressed inp (HandleArrowKeysPressed inp s)
  if s2.gameState = GameState.Init then HandleBricksFade s2 else s2

/-- The border check of the frame: the call of `HandleBordersCollision` in
`UpdateGameFrame`, with its return value. -/
def afterBorders (inp : FrameInput) (s : Game) : Game × Bool :=
  HandleBordersCollision (UpdateParticles inp.frameTime (afterKeys inp s))

/-- The frame detects a bottom loss: the `Running` block is entered and
`HandleBordersCollision` returns `true`. -/
def bottomLoss (inp : FrameInput) (s : Game) : Bool :=
  decide ((afterKeys inp s).gameState = GameState.Running) && (afterBorders inp s).2

/-- The brick check of the frame: the call of `HandleBricksCollision` in
`UpdateGameFrame`, with its return value. -/
def afterBricks (inp : FrameInput) (s : Game) : Game × Bool :=
  HandleBricksCollision inp.rand (HandleBarCollision (afterBorders inp s).1)

/-- The frame destroys a brick: the `Running` block is entered, no bottom
loss is detected and `HandleBricksCollision` returns `true`. -/
def brickHit (inp : FrameInput) (s : Game) : Bool :=
  decide ((afterKeys inp s).gameState = GameState.Running) && !(afterBorders inp s).2
    && (afterBricks inp s).2

/-! ## Concrete runs -/

/-- A frame input with the given keys, frame time `1/100` and `rand()`
returning zero. -/
def keys (left right space : Bool) : FrameInput :=
  { left := left, right := right, space := space, frameTime := 1 / 100, rand := fun _ => 0 }

/-- Left key held. -/
def keyLeft : FrameInput := keys true false false

/-- Right key held. -/
def keyRight : FrameInput := keys false true false

/-- No key. -/
def noKey : FrameInput := keys false false false

/-- Space pressed. -/
def keySpace : FrameInput := keys false false true

/-- The paddle is moved 70 to the left, the ball is launched from the paddle,
bounces off it downwards, the paddle is moved away and the ball falls beside
it. -/
def fallInputs : List FrameInput :=
  List.replicate 7 keyLeft ++ [keySpace, keyLeft, keyLeft] ++ List.replicate 17 noKey

/-- The same manoeuvre from a state in which the ball has fallen below the
screen: the first frame detects that loss, the last one lets the next ball
fall below the screen. -/
def dropAgainInputs : List FrameInput :=
  [keyRight, keyRight, keySpace, keyLeft, keyLeft] ++ List.replicate 18 noKey

/-- The state after `fallInputs`: the first ball is falling beside the
paddle, at height 757.4. -/
def fallingState : Game :=
  { InitGame with
    gameState := GameState.Running
    bricks := InitBricks.map (fun b => { b with fade := 1 })
    bar := { InitGame.bar with x := 347 }
    ball := { position := ⟨582, 3787 / 5⟩, velocity := ⟨7 / 2, -18 / 5⟩
              radius := BALL_RADIUS, active := true }
    sounds := [Sound.hitBarSound] }

/-- The state one frame later: the first ball is at height 761, below
`HEIGHT - BALL_RADIUS`. -/
def droppedState : Game :=
  { fallingState with
    ball := { position := ⟨1171 / 2, 761⟩, velocity := ⟨7 / 2, -179 / 50⟩
              radius := BALL_RADIUS, active := true } }

/-- The state in which the second ball is below the screen. -/
def secondDroppedState : Game :=
  { droppedState with
    lives := 2
    sounds := [Sound.hitBarSound, Sound.resetSound, Sound.looseSound, Sound.hitBarSound] }

/-- The state in which the third ball is below the screen. -/
def lastBallDroppedState : Game :=
  { droppedState with
    lives := 1
    sounds := [Sound.hitBarSound, Sound.resetSound, Sound.looseSound, Sound.hitBarSound,
      Sound.resetSound, Sound.looseSound, Sound.hitBarSound] }

/-- The state after the loss of the third ball. -/
def gameOverState : Game :=
  { lastBallDroppedState with
    gameState := GameState.GameOver
    ball := { lastBallDroppedState.ball with active := false }
    sounds := Sound.looseSound :: lastBallDroppedState.sounds }

/-- A `Running` state in which only the brick of row 4, column 2 is left and
the ball touches it from below. -/
def lastBrickState : Game :=
  { InitGame with
    gameState := GameState.Running
    bricks := (List.range (ROWS_COUNT * COLS_COUNT)).map (fun k =>
      { initBrick (k / COLS_COUNT) (k % COLS_COUNT) with active := decide (k = 22), fade := 1 })
    bricksLeft := 1
    score := 240
    ball := { position := ⟨500, 285⟩, velocity := ⟨0, 5⟩, radius := BALL_RADIUS, active := true } }

/-- A pool of 200 slots of which the slots 0 and 2 are active. -/
def samplePool : List Particle :=
  [newParticle ⟨0, 0⟩ RED 0 0, zeroParticle, newParticle ⟨0, 0⟩ RED 0 0]
    ++ List.replicate 197 zeroParticle

/-- The left key is held for 44 frames. -/
def leftInputs : List FrameInput := List.replicate 44 keyLeft

/-- The right key is held for 44 frames. -/
def rightInputs : List FrameInput := List.replicate 44 keyRight

@[simp] theorem arrow_gameState (inp : FrameInput) (s : Game) :
    (HandleArrowKeysPressed inp s).gameState = s.gameState := by
  unfold HandleArrowKeysPressed
  dsimp only
  split <;> split <;> rfl

@[simp] theorem arrow_bricks (inp : FrameInput) (s : Game) :
    (HandleArrowKeysPressed inp s).bricks = s.bricks := by
  unfold HandleArrowKeysPressed
  dsimp only
  split <;> split <;> rfl

@[simp] theorem arrow_bricksLeft (inp : FrameInput) (s : Game) :
    (HandleArrowKeysPressed inp s).bricksLeft = s.bricksLeft := by
  unfold HandleArrowKeysPressed
  dsimp only
  split <;> split <;> rfl

theorem countP_active_map (f : Brick → Brick) (hf : ∀ b, (f b).active = b.active) (l : List Brick) :
    (l.map f).countP (fun b => b.active) = l.countP (fun b => b.active) := by
  induction l with
  | nil => rfl
  | cons b bs ih => simp [List.countP_cons, ih, hf]

theorem fadeBrick_active (b : Brick) : (fadeBrick b).active = b.active := by
  unfold fadeBrick
  split <;> rfl

theorem countP_set_inactive (l : List Brick) (k : Nat) (b c : Brick) (hk : l[k]? = some b)
    (hb : b.active = true) (hc : c.active = false) :
    (l.set k c).countP (fun x => x.active) + 1 = l.countP (fun x => x.active) := by
  induction l generalizing k with
  | nil => simp at hk
  | cons x xs ih =>
    cases k with
    | zero =>
      simp at hk
      subst hk
      simp [List.countP_cons, hb, hc]
    | succ k =>
      simp at hk
      have := ih k hk
      simp only [List.set_cons_succ, List.countP_cons]
      omega

theorem findHit_spec (ball : Ball) (l : List Brick) (k0 k : Nat) (h : findHit ball k0 l = some k) :
    k0 ≤ k ∧ ∃ b, l[k - k0]? = some b ∧ b.active = true
      ∧ CheckCollisionCircleRec ball.position ball.radius b.rect = true := by
  induction l generalizing k0 with
  | nil => simp [findHit] at h
  | cons x xs ih =>
    unfold findHit at h
    split at h
    · obtain ⟨h1, b, h2, h3⟩ := ih (k0 + 1) h
      refine ⟨by omega, b, ?_, h3⟩
      have : k - k0 = (k - (k0 + 1)) + 1 := by omega
      rw [this]
      simpa using h2
    · split at h
      · obtain ⟨h1, b, h2, h3⟩ := ih (k0 + 1) h
        refine ⟨by omega, b, ?_, h3⟩
        have : k - k0 = (k - (k0 + 1)) + 1 := by omega
        rw [this]
        simpa using h2
      · simp at h
        subst h
        refine ⟨le_refl _, x, by simp, ?_, ?_⟩
        · rename_i h1 h2
          simpa using h1
        · rename_i h1 h2
          simpa using h2

/-- A property kept by every operation a frame is made of is kept by the frame. -/
theorem frame_preserves (P : Game → Prop)
    (hArrow : ∀ inp s, P s → P (HandleArrowKeysPressed inp s))
    (hSpace : ∀ inp s, P s → P (HandleSpaceKeyPressed inp s))
    (hFade : ∀ s, P s → P (HandleBricksFade s))
    (hPart : ∀ dt s, P s → P (UpdateParticles dt s))
    (hBorders : ∀ s, P s → P (HandleBordersCollision s).1)
    (hBar : ∀ s, P s → P (HandleBarCollision s))
    (hBricks : ∀ rand s, P s → P (HandleBricksCollision rand s).1)
    (hLevel : ∀ s, P s → P (CheckForNextLevel s))
    (hMove : ∀ s, P s → P (moveBall s))
    (inp : FrameInput) (s : Game) (h : P s) : P (UpdateGameFrame inp s) := by
  unfold UpdateGameFrame
  dsimp only
  have h2 := hSpace inp _ (hArrow inp s h)
  have h3 : P (if (HandleSpaceKeyPressed inp (HandleArrowKeysPressed inp s)).gameState = GameState.Init
      then HandleBricksFade (HandleSpaceKeyPressed inp (HandleArrowKeysPressed inp s))
      else HandleSpaceKeyPressed inp (HandleArrowKeysPressed inp s)) := by
    split
    · exact hFade _ h2
    · exact h2
  generalize (if (HandleSpaceKeyPressed inp (HandleArrowKeysPressed inp s)).gameState = GameState.Init
      then HandleBricksFade (HandleSpaceKeyPressed inp (HandleArrowKeysPressed inp s))
      else HandleSpaceKeyPressed inp (HandleArrowKeysPressed inp s)) = s3 at h3 ⊢
  by_cases hr : s3.gameState = GameState.Running
  · rw [if_pos hr]
    unfold runningFrame
    dsimp only
    have h4 := hBorders _ (hPart inp.frameTime _ h3)
    by_cases hl : (HandleBordersCollision (UpdateParticles inp.frameTime s3)).2 = true
    · rw [if_pos hl]
      exact h4
    · rw [if_neg hl]
      have h5 := hBricks inp.rand _ (hBar _ h4)
      split
      · exact hLevel _ h5
      · exact hMove _ h5
  · rw [if_neg hr]
    exact h3

/-- A property of `InitGame` kept by every frame holds in every reachable state. -/
theorem reachable_induction (P : Game → Prop) (h0 : P InitGame)
    (hstep : ∀ inp s, P s → P (UpdateGameFrame inp s)) (s : Game) (h : Reachable s) : P s := by
  induction h with
  | init => exact h0
  | frame inp s _ ih => exact hstep inp s ih

theorem reachable_runFrames (l : List FrameInput) (s : Game) (h : Reachable s) :
    Reachable (runFrames l s) := by
  induction l generalizing s with
  | nil => exact h
  | cons inp rest ih => exact ih _ (Reachable.frame inp s h)

theorem countP_active_all (l : List Brick) :
    (l.map (fun b => { b with active := true })).countP (fun b => b.active) = l.length := by
  induction l with
  | nil => rfl
  | cons b bs ih => simp [List.countP_cons, ih]

theorem bricksCounted_ResetGame (s : Game) (h : s.bricks.length = ROWS_COUNT * COLS_COUNT) :
    bricksCounted (ResetGame s) := by
  have hb : (ResetGame s).bricks = s.bricks.map (fun b => { b with active := true }) := rfl
  have hl : (ResetGame s).bricksLeft = ((ROWS_COUNT * COLS_COUNT : Nat) : Int) := rfl
  unfold bricksCounted activeBricks
  rw [hb, hl, countP_active_all, List.length_map, h]
  exact ⟨rfl, rfl⟩

theorem bricksCounted_of_eq (s t : Game) (hb : t.bricks = s.bricks) (hl : t.bricksLeft = s.bricksLeft)
    (h : bricksCounted s) : bricksCounted t := by
  unfold bricksCounted activeBricks at *
  rw [hb, hl]
  exact h

theorem bricksCounted_arrow (inp : FrameInput) (s : Game) (h : bricksCounted s) :
    bricksCounted (HandleArrowKeysPressed inp s) :=
  bricksCounted_of_eq s _ (arrow_bricks inp s) (arrow_bricksLeft inp s) h

theorem bricksCounted_space (inp : FrameInput) (s : Game) (h : bricksCounted s) :
    bricksCounted (HandleSpaceKeyPressed inp s) := by
  unfold HandleSpaceKeyPressed
  split
  · split
    · refine ⟨by simpa [FadeInBricks] using h.1, ?_⟩
      have : activeBricks { FadeInBricks s with gameState := GameState.Running } = activeBricks s := by
        unfold activeBricks FadeInBricks
        dsimp only
        apply countP_active_map
        intro b
        split <;> simp_all
      rw [this]
      exact h.2
    · exact h
    · have := bricksCounted_ResetGame s h.1
      exact bricksCounted_of_eq (ResetGame s) _ rfl rfl this
  · exact h

theorem bricksCounted_fade (s : Game) (h : bricksCounted s) : bricksCounted (HandleBricksFade s) := by
  refine ⟨by simpa [HandleBricksFade] using h.1, ?_⟩
  have : activeBricks (HandleBricksFade s) = activeBricks s := by
    unfold activeBricks HandleBricksFade
    exact countP_active_map _ fadeBrick_active _
  rw [this]
  exact h.2

theorem bricksCounted_bottom (s : Game) (h : bricksCounted s) :
    bricksCounted (HandleBottomCollision s) := by
  unfold HandleBottomCollision
  dsimp only
  split
  · exact bricksCounted_ResetGame _ h.1
  · exact bricksCounted_of_eq s _ rfl rfl h

theorem bricksCounted_borders (s : Game) (h : bricksCounted s) :
    bricksCounted (HandleBordersCollision s).1 := by
  unfold HandleBordersCollision
  dsimp only
  generalize bounceOffWalls s.ball = b3
  split
  · exact bricksCounted_bottom _ (bricksCounted_of_eq s _ rfl rfl h)
  · exact bricksCounted_of_eq s _ rfl rfl h

theorem bricksCounted_bar (s : Game) (h : bricksCounted s) : bricksCounted (HandleBarCollision s) := by
  unfold HandleBarCollision
  split
  · exact h
  · exact bricksCounted_of_eq s _ rfl rfl h

theorem bricksCounted_destroy (rand : Nat → Nat) (k : Nat) (s : Game) (b : Brick)
    (hk : s.bricks[k]? = some b) (hb : b.active = true) (h : bricksCounted s) :
    bricksCounted (DestroyBrick rand k s) := by
  unfold DestroyBrick
  rw [hk]
  refine ⟨by simpa [PlaySound] using h.1, ?_⟩
  have hc := countP_set_inactive s.bricks k b { b with active := false, fade := 0 } hk hb rfl
  have h2 := h.2
  unfold activeBricks at *
  simp only [PlaySound]
  omega

theorem bricksCounted_bricks (rand : Nat → Nat) (s : Game) (h : bricksCounted s) :
    bricksCounted (HandleBricksCollision rand s).1 := by
  unfold HandleBricksCollision
  split
  · exact h
  · rename_i k hk
    obtain ⟨_, b, hb, hact, _⟩ := findHit_spec s.ball s.bricks 0 k hk
    simp only [Nat.sub_zero] at hb
    rw [hb]
    exact bricksCounted_destroy rand k _ b hb hact (bricksCounted_of_eq s _ rfl rfl h)

theorem bricksCounted_level (s : Game) (h : bricksCounted s) : bricksCounted (CheckForNextLevel s) := by
  unfold CheckForNextLevel
  split
  · exact bricksCounted_of_eq (ResetGame s) _ rfl rfl (bricksCounted_ResetGame s h.1)
  · exact h

theorem bricksCounted_frame (inp : FrameInput) (s : Game) (h : bricksCounted s) :
    bricksCounted (UpdateGameFrame inp s) :=
  frame_preserves bricksCounted bricksCounted_arrow bricksCounted_space bricksCounted_fade
    (fun _ s h => bricksCounted_of_eq s _ rfl rfl h) bricksCounted_borders bricksCounted_bar
    bricksCounted_bricks bricksCounted_level (fun s h => bricksCounted_of_eq s _ rfl rfl h) inp s h

theorem bricksCounted_init : bricksCounted InitGame := by
  constructor <;> decide

/-- C1: in every state reachable from `InitGame` by frame updates under any
inputs, `bricksLeft` equals the number of bricks of the grid whose `active`
flag is set (and the grid has its 25 bricks). -/
theorem bricksLeft_eq_active_count (s : Game) (h : Reachable s) :
    s.bricksLeft = (activeBricks s : Int) ∧ s.bricks.length = 25 := by
  have := reachable_induction bricksCounted bricksCounted_init bricksCounted_frame s h
  exact ⟨this.2, this.1⟩

/-- Witness of C1: the state after the frames of `fallInputs`. -/
theorem bricksLeft_eq_active_count_witness :
    Reachable (runFrames fallInputs InitGame) ∧
      (runFrames fallInputs InitGame).bricksLeft = (activeBricks (runFrames fallInputs InitGame) : Int) ∧
      (runFrames fallInputs InitGame).bricks.length = 25 :=
  ⟨reachable_runFrames _ _ Reachable.init,
    bricksLeft_eq_active_count _ (reachable_runFrames _ _ Reachable.init)⟩

/-! ## The shape of a frame -/

theorem frame_eq (inp : FrameInput) (s : Game) :
    UpdateGameFrame inp s =
      if (afterKeys inp s).gameState = GameState.Running then
        if (afterBorders inp s).2 = true then (afterBorders inp s).1
        else if (afterBricks inp s).2 = true then CheckForNextLevel (afterBricks inp s).1
        else moveBall (afterBricks inp s).1
      else afterKeys inp s := rfl

theorem space_running (inp : FrameInput) (s : Game) (h : s.gameState = GameState.Running) :
    HandleSpaceKeyPressed inp s = s := by
  unfold HandleSpaceKeyPressed
  split
  · rw [h]
  · rfl

theorem afterKeys_running (inp : FrameInput) (s : Game) (h : s.gameState = GameState.Running) :
    afterKeys inp s = HandleArrowKeysPressed inp s := by
  unfold afterKeys
  have h1 : (HandleArrowKeysPressed inp s).gameState = GameState.Running := by
    rw [arrow_gameState]; exact h
  rw [space_running inp _ h1, if_neg (by rw [h1]; decide)]

theorem afterKeys_gameState_running (inp : FrameInput) (s : Game)
    (h : s.gameState = GameState.Running) :
    (afterKeys inp s).gameState = GameState.Running := by
  rw [afterKeys_running inp s h, arrow_gameState]; exact h

theorem frame_of_bottomLoss (inp : FrameInput) (s : Game) (h : bottomLoss inp s = true) :
    UpdateGameFrame inp s = (afterBorders inp s).1 := by
  unfold bottomLoss at h
  simp only [Bool.and_eq_true, decide_eq_true_eq] at h
  rw [frame_eq, if_pos h.1, if_pos h.2]

theorem frame_of_brickHit (inp : FrameInput) (s : Game) (h : brickHit inp s = true) :
    UpdateGameFrame inp s = CheckForNextLevel (afterBricks inp s).1 := by
  unfold brickHit at h
  simp only [Bool.and_eq_true, decide_eq_true_eq, Bool.not_eq_true'] at h
  rw [frame_eq, if_pos h.1.1, if_neg (by simp [h.1.2]), if_pos h.2]

theorem frame_of_move (inp : FrameInput) (s : Game)
    (hr : (afterKeys inp s).gameState = GameState.Running)
    (hl : bottomLoss inp s = false) (hb : brickHit inp s = false) :
    UpdateGameFrame inp s = moveBall (afterBricks inp s).1 := by
  have h1 : (afterBorders inp s).2 = false := by
    unfold bottomLoss at hl
    simpa [hr] using hl
  have h2 : (afterBricks inp s).2 = false := by
    unfold brickHit at hb
    simpa [hr, h1] using hb
  rw [frame_eq, if_pos hr, if_neg (by simp [h1]), if_neg (by simp [h2])]

theorem frame_of_idle (inp : FrameInput) (s : Game)
    (hr : (afterKeys inp s).gameState ≠ GameState.Running) :
    UpdateGameFrame inp s = afterKeys inp s := by
  rw [frame_eq, if_neg hr]

/-! ## What `HandleBricksCollision` does -/

theorem bricksCollision_cases (rand : Nat → Nat) (t : Game) :
    ((HandleBricksCollision rand t).2 = false ∧ (HandleBricksCollision rand t).1 = t) ∨
    ((HandleBricksCollision rand t).2 = true ∧ ∃ k b, t.bricks[k]? = some b ∧ b.active = true ∧
      findHit t.ball 0 t.bricks = some k ∧
      (HandleBricksCollision rand t).1 =
        DestroyBrick rand k { t with ball := bounceOffBrick t.ball b }) := by
  unfold HandleBricksCollision
  split
  · left; exact ⟨rfl, rfl⟩
  · rename_i k hk
    obtain ⟨_, b, hb, hact, _⟩ := findHit_spec t.ball t.bricks 0 k hk
    simp only [Nat.sub_zero] at hb
    right
    rw [hb]
    exact ⟨rfl, k, b, hb, hact, hk, rfl⟩

theorem destroyBrick_fields (rand : Nat → Nat) (k : Nat) (t : Game) (b : Brick)
    (hk : t.bricks[k]? = some b) :
    (DestroyBrick rand k t).bricks = t.bricks.set k { b with active := false, fade := 0 } ∧
    (DestroyBrick rand k t).sounds = Sound.destroyBrickSound :: t.sounds ∧
    (DestroyBrick rand k t).score = t.score + 10 ∧
    (DestroyBrick rand k t).bricksLeft = t.bricksLeft - 1 ∧
    (DestroyBrick rand k t).gameState = t.gameState ∧
    (DestroyBrick rand k t).ball = t.ball ∧
    (DestroyBrick rand k t).bar = t.bar ∧
    (DestroyBrick rand k t).level = t.level ∧
    (DestroyBrick rand k t).lives = t.lives ∧
    (DestroyBrick rand k t).speedIncrement = t.speedIncrement := by
  unfold DestroyBrick
  rw [hk]
  exact ⟨rfl, rfl, rfl, rfl, rfl, rfl, rfl, rfl, rfl, rfl⟩

/-! ## Bricks and calls of `DestroyBrick` along a frame -/

theorem arrow_eq (inp : FrameInput) (s : Game) :
    ∃ x, HandleArrowKeysPressed inp s = { s with bar := { s.bar with x := x } } := by
  unfold HandleArrowKeysPressed
  dsimp only
  split <;> split <;> exact ⟨_, rfl⟩

theorem resetGame_activeBricks (t : Game) : activeBricks (ResetGame t) = t.bricks.length :=
  countP_active_all t.bricks

theorem activeBricks_le (t : Game) : activeBricks t ≤ t.bricks.length :=
  List.countP_le_length _

theorem sameOrReset_active (t u : Game) (h : sameOrReset t u) :
    u.bricks.length = t.bricks.length ∧ activeBricks t ≤ activeBricks u := by
  rcases h.2 with h1 | h1
  · unfold activeBricks; rw [h1]; exact ⟨rfl, le_refl _⟩
  · unfold activeBricks; rw [h1, countP_active_all, List.length_map]
    exact ⟨rfl, List.countP_le_length _⟩

theorem sameOrReset_bottom (t : Game) : sameOrReset t (HandleBottomCollision t) := by
  unfold HandleBottomCollision
  dsimp only
  split
  · exact ⟨by simp [destroyCalls, ResetGame, ResetBricks, ResetBall, ResetParticles, PlaySound],
      Or.inr rfl⟩
  · exact ⟨by simp [destroyCalls, PlaySound], Or.inl rfl⟩

theorem sameOrReset_borders (t : Game) : sameOrReset t (HandleBordersCollision t).1 := by
  unfold HandleBordersCollision
  dsimp only
  generalize bounceOffWalls t.ball = b3
  split
  · exact sameOrReset_bottom { t with ball := b3 }
  · exact ⟨rfl, Or.inl rfl⟩

theorem sameOrReset_level (t : Game) : sameOrReset t (CheckForNextLevel t) := by
  unfold CheckForNextLevel
  split
  · exact ⟨by simp [destroyCalls, ResetGame, ResetBricks, ResetBall, ResetParticles, PlaySound],
      Or.inr rfl⟩
  · exact ⟨rfl, Or.inl rfl⟩

theorem bar_bricks (t : Game) :
    (HandleBarCollision t).bricks = t.bricks ∧ destroyCalls (HandleBarCollision t) = destroyCalls t := by
  unfold HandleBarCollision
  split
  · exact ⟨rfl, rfl⟩
  · exact ⟨rfl, by simp [destroyCalls, PlaySound]⟩

theorem bricksCollision_effect (rand : Nat → Nat) (t : Game) :
    ((HandleBricksCollision rand t).2 = false ∧ (HandleBricksCollision rand t).1 = t) ∨
    ((HandleBricksCollision rand t).2 = true ∧ ∃ k b, t.bricks[k]? = some b ∧ b.active = true ∧
      (HandleBricksCollision rand t).1.bricks = t.bricks.set k { b with active := false, fade := 0 } ∧
      activeBricks (HandleBricksCollision rand t).1 + 1 = activeBricks t ∧
      destroyCalls (HandleBricksCollision rand t).1 = destroyCalls t + 1) := by
  rcases bricksCollision_cases rand t with h | ⟨h, k, b, hk, hact, _, heq⟩
  · exact Or.inl h
  · right
    obtain ⟨h1, h2, _⟩ := destroyBrick_fields rand k { t with ball := bounceOffBrick t.ball b } b hk
    refine ⟨h, k, b, hk, hact, ?_, ?_, ?_⟩
    · rw [heq, h1]
    · unfold activeBricks
      rw [heq, h1]
      exact countP_set_inactive t.bricks k b _ hk hact rfl
    · unfold destroyCalls
      rw [heq, h2]
      simp

/-- C2: a frame update in `Running` state destroys at most one brick. The
number of calls of `DestroyBrick` grows by one when the brick check of the
frame reports a hit and not at all otherwise, at most one brick fewer is
active after the frame, and `HandleBricksCollision`, in whatever state it is
called, either returns `false` and changes nothing or returns `true` and
deactivates exactly one brick, which was active. -/
theorem one_brick_per_frame (inp : FrameInput) (s : Game) (h : s.gameState = GameState.Running) :
    destroyCalls (UpdateGameFrame inp s) = destroyCalls s + (if brickHit inp s = true then 1 else 0) ∧
    destroyCalls (UpdateGameFrame inp s) ≤ destroyCalls s + 1 ∧
    activeBricks s ≤ activeBricks (UpdateGameFrame inp s) + 1 ∧
    (∀ (rand : Nat → Nat) (t : Game),
      ((HandleBricksCollision rand t).2 = false ∧ (HandleBricksCollision rand t).1 = t) ∨
      ((HandleBricksCollision rand t).2 = true ∧ ∃ k b, t.bricks[k]? = some b ∧ b.active = true ∧
        (HandleBricksCollision rand t).1.bricks
          = t.bricks.set k { b with active := false, fade := 0 } ∧
        activeBricks (HandleBricksCollision rand t).1 + 1 = activeBricks t ∧
        destroyCalls (HandleBricksCollision rand t).1 = destroyCalls t + 1)) := by
  have hk : (afterKeys inp s).gameState = GameState.Running := afterKeys_gameState_running inp s h
  have hk1 : destroyCalls (afterKeys inp s) = destroyCalls s ∧ (afterKeys inp s).bricks = s.bricks := by
    rw [afterKeys_running inp s h]
    obtain ⟨x, hx⟩ := arrow_eq inp s
    rw [hx]
    exact ⟨rfl, rfl⟩
  have hb := sameOrReset_borders (UpdateParticles inp.frameTime (afterKeys inp s))
  have hb1 := sameOrReset_active _ _ hb
  have hb2 : destroyCalls (afterBorders inp s).1 = destroyCalls s := by
    have := hb.1
    unfold afterBorders
    rw [this, ← hk1.1]
    rfl
  have hb3 : activeBricks s ≤ activeBricks (afterBorders inp s).1 := by
    have : activeBricks (UpdateParticles inp.frameTime (afterKeys inp s)) = activeBricks s := by
      unfold activeBricks
      show List.countP _ (afterKeys inp s).bricks = _
      rw [hk1.2]
    rw [← this]
    exact hb1.2
  have main : destroyCalls (UpdateGameFrame inp s)
        = destroyCalls s + (if brickHit inp s = true then 1 else 0) ∧
      activeBricks s ≤ activeBricks (UpdateGameFrame inp s) + 1 := by
    by_cases hl : bottomLoss inp s = true
    · have hh : brickHit inp s = false := by
        unfold bottomLoss at hl
        unfold brickHit
        simp only [Bool.and_eq_true, decide_eq_true_eq] at hl
        simp [hl.2]
      rw [frame_of_bottomLoss inp s hl, hh]
      exact ⟨by simpa using hb2, by omega⟩
    · have hl0 : bottomLoss inp s = false := by simpa using hl
      have hbar := bar_bricks (afterBorders inp s).1
      have hbar2 : activeBricks (HandleBarCollision (afterBorders inp s).1)
          = activeBricks (afterBorders inp s).1 := by
        unfold activeBricks; rw [hbar.1]
      by_cases hh : brickHit inp s = true
      · rw [frame_of_brickHit inp s hh, if_pos hh]
        have h2 : (afterBricks inp s).2 = true := by
          unfold brickHit at hh
          simp only [Bool.and_eq_true] at hh
          exact hh.2
        have hlev := sameOrReset_level (afterBricks inp s).1
        have hlev1 := sameOrReset_active _ _ hlev
        rcases bricksCollision_effect inp.rand (HandleBarCollision (afterBorders inp s).1) with
          hc | ⟨_, k, b, _, _, _, hc1, hc2⟩
        · exact absurd h2 (by unfold afterBricks; rw [hc.1]; decide)
        · have e1 : destroyCalls (afterBricks inp s).1 = destroyCalls s + 1 := by
            unfold afterBricks; rw [hc2, hbar.2, hb2]
          have e2 : activeBricks (afterBricks inp s).1 + 1 = activeBricks (afterBorders inp s).1 := by
            unfold afterBricks; rw [hc1, hbar2]
          exact ⟨by rw [hlev.1, e1], by omega⟩
      · have hh0 : brickHit inp s = false := by simpa using hh
        rw [frame_of_move inp s hk hl0 hh0, if_neg hh]
        have h2 : (afterBricks inp s).2 = false := by
          have h1 : (afterBorders inp s).2 = false := by
            unfold bottomLoss at hl0
            simpa [hk] using hl0
          unfold brickHit at hh0
          simpa [hk, h1] using hh0
        rcases bricksCollision_effect inp.rand (HandleBarCollision (afterBorders inp s).1) with
          hc | ⟨hc, _⟩
        · have e : (afterBricks inp s).1 = HandleBarCollision (afterBorders inp s).1 := hc.2
          have e1 : destroyCalls (moveBall (afterBricks inp s).1) = destroyCalls s := by
            show destroyCalls (afterBricks inp s).1 = _
            rw [e, hbar.2, hb2]
          have e2 : activeBricks (moveBall (afterBricks inp s).1)
              = activeBricks (afterBorders inp s).1 := by
            show activeBricks (afterBricks inp s).1 = _
            rw [e, hbar2]
          exact ⟨by rw [e1]; rfl, by omega⟩
        · exact absurd hc (by
            have : (afterBricks inp s).2 = (HandleBricksCollision inp.rand
              (HandleBarCollision (afterBorders inp s).1)).2 := rfl
            rw [← this, h2]; decide)
  refine ⟨main.1, ?_, main.2, bricksCollision_effect⟩
  rw [main.1]
  split <;> omega

/-- Witness of C2: the frame that destroys the last brick of `lastBrickState`. -/
theorem one_brick_per_frame_witness :
    lastBrickState.gameState = GameState.Running ∧
    destroyCalls (UpdateGameFrame noKey lastBrickState)
      = destroyCalls lastBrickState + (if brickHit noKey lastBrickState = true then 1 else 0) :=
  ⟨rfl, (one_brick_per_frame noKey lastBrickState rfl).1⟩

/-! ## Facts about the concrete runs -/

theorem fallingState_run : runFrames fallInputs InitGame = fallingState := by
  decide!

theorem droppedState_step : UpdateGameFrame noKey fallingState = droppedState := by
  decide!

theorem secondDroppedState_run : runFrames dropAgainInputs droppedState = secondDroppedState := by
  decide!

theorem lastBallDroppedState_run :
    runFrames dropAgainInputs secondDroppedState = lastBallDroppedState := by
  decide!

theorem gameOverState_step : UpdateGameFrame noKey lastBallDroppedState = gameOverState := by
  decide!

theorem fallingState_reachable : Reachable fallingState := by
  rw [← fallingState_run]
  exact reachable_runFrames _ _ Reachable.init

theorem droppedState_reachable : Reachable droppedState := by
  rw [← droppedState_step]
  exact Reachable.frame _ _ fallingState_reachable

theorem lastBallDroppedState_reachable : Reachable lastBallDroppedState := by
  rw [← lastBallDroppedState_run, ← secondDroppedState_run]
  exact reachable_runFrames _ _ (reachable_runFrames _ _ droppedState_reachable)

theorem gameOverState_reachable : Reachable gameOverState := by
  rw [← gameOverState_step]
  exact Reachable.frame _ _ lastBallDroppedState_reachable

theorem gameOverState_gameState : gameOverState.gameState = GameState.GameOver := rfl

theorem fallingState_gameState : fallingState.gameState = GameState.Running := rfl

theorem fallingState_no_loss : bottomLoss noKey fallingState = false := by
  decide!

/-! ## The ball and the borders -/

theorem bounceOffWalls_bounds (b : Ball) :
    BALL_RADIUS ≤ (bounceOffWalls b).position.x ∧ (bounceOffWalls b).position.x ≤ WIDTH - BALL_RADIUS
      ∧ BALL_RADIUS ≤ (bounceOffWalls b).position.y := by
  unfold bounceOffWalls WIDTH BALL_RADIUS
  dsimp only
  split_ifs <;> refine ⟨?_, ?_, ?_⟩ <;> norm_num at * <;> linarith

theorem borders_inBox (t : Game) (h : (HandleBordersCollision t).2 = false) :
    inBox (HandleBordersCollision t).1.ball.position := by
  have hb := bounceOffWalls_bounds t.ball
  unfold HandleBordersCollision at h ⊢
  dsimp only at h ⊢
  split
  · rename_i hc
    rw [if_pos hc] at h
    exact absurd h (Bool.noConfusion)
  · rename_i hc
    exact ⟨hb.1, hb.2.1, hb.2.2, not_lt.mp hc⟩

theorem initial_ball_inBox : inBox ⟨INITIAL_BALL_X, INITIAL_BALL_Y⟩ := by
  decide!

theorem bar_inBox (t : Game) (h : inBox t.ball.position) :
    inBox (HandleBarCollision t).ball.position := by
  unfold HandleBarCollision
  split
  · exact h
  · have h0 := initial_ball_inBox
    exact ⟨h.1, h.2.1, h0.2.2.1, h0.2.2.2⟩

theorem bounceOffBrick_position (ball : Ball) (b : Brick) :
    (bounceOffBrick ball b).position = ball.position := by
  unfold bounceOffBrick
  dsimp only
  split
  · rfl
  · split <;> rfl

theorem bricksCollision_position (rand : Nat → Nat) (t : Game) :
    (HandleBricksCollision rand t).1.ball.position = t.ball.position := by
  rcases bricksCollision_cases rand t with h | ⟨_, k, b, hk, _, _, heq⟩
  · rw [h.2]
  · have := (destroyBrick_fields rand k { t with ball := bounceOffBrick t.ball b } b hk).2.2.2.2.2.1
    rw [heq, this]
    exact bounceOffBrick_position t.ball b

theorem level_inBox (t : Game) (h : inBox t.ball.position) :
    inBox (CheckForNextLevel t).ball.position := by
  unfold CheckForNextLevel
  split
  · exact initial_ball_inBox
  · exact h

/-- C3, as stated, fails in a reachable state: the first ball is falling
beside the paddle at height 757.4; the frame detects no bottom loss and moves
the ball to height 761, below `HEIGHT - BALL_RADIUS = 758`. -/
theorem ball_leaves_box_at_frame_end :
    Reachable fallingState ∧ fallingState.gameState = GameState.Running ∧
      bottomLoss noKey fallingState = false ∧
      (UpdateGameFrame noKey fallingState).ball.position.y = 761 ∧
      ¬ inBox (UpdateGameFrame noKey fallingState).ball.position := by
  have e := droppedState_step
  refine ⟨fallingState_reachable, rfl, fallingState_no_loss, ?_, ?_⟩
  · rw [e]; rfl
  · rw [e]; decide!

/-- C3, amended: in a frame update performed in `Running` state in which no
bottom loss is detected, the ball lies in `[10, 1014] x [10, 758]` right
after the border check; at the end of the frame it lies in that box when the
frame destroyed a brick, and otherwise the position it was moved from in that
frame (the end position taken back by the velocity step) lies in that box. -/
theorem ball_in_box_before_move (inp : FrameInput) (s : Game)
    (h : s.gameState = GameState.Running) (hl : bottomLoss inp s = false) :
    inBox (afterBorders inp s).1.ball.position ∧
    (brickHit inp s = true → inBox (UpdateGameFrame inp s).ball.position) ∧
    (brickHit inp s = false →
      inBox ⟨(UpdateGameFrame inp s).ball.position.x - (UpdateGameFrame inp s).ball.velocity.x,
             (UpdateGameFrame inp s).ball.position.y
               + ((UpdateGameFrame inp s).ball.velocity.y - GRAVITY)⟩) := by
  have hk : (afterKeys inp s).gameState = GameState.Running := afterKeys_gameState_running inp s h
  have h1 : (afterBorders inp s).2 = false := by
    unfold bottomLoss at hl
    simpa [hk] using hl
  have hbox : inBox (afterBorders inp s).1.ball.position := borders_inBox _ h1
  have hbar := bar_inBox _ hbox
  have hbr : inBox (afterBricks inp s).1.ball.position := by
    unfold afterBricks
    rw [bricksCollision_position]
    exact hbar
  refine ⟨hbox, ?_, ?_⟩
  · intro hh
    rw [frame_of_brickHit inp s hh]
    exact level_inBox _ hbr
  · intro hh
    rw [frame_of_move inp s hk hl hh]
    have e : ∀ t : Game,
        (⟨(moveBall t).ball.position.x - (moveBall t).ball.velocity.x,
          (moveBall t).ball.position.y + ((moveBall t).ball.velocity.y - GRAVITY)⟩ : Vector2)
          = t.ball.position := by
      intro t
      unfold moveBall
      dsimp only
      cases hp : t.ball.position
      simp
    rw [e]
    exact hbr

/-- Witness of C3 (amended): the frame in which the first ball falls below the screen. -/
theorem ball_in_box_before_move_witness :
    fallingState.gameState = GameState.Running ∧ bottomLoss noKey fallingState = false ∧
    inBox (afterBorders noKey fallingState).1.ball.position :=
  ⟨fallingState_gameState, fallingState_no_loss,
    (ball_in_box_before_move noKey fallingState fallingState_gameState fallingState_no_loss).1⟩

/-! ## The particle pool -/

theorem newParticle_active (position : Vector2) (color : Color) (r1 r2 : Nat) :
    (newParticle position color r1 r2).active = true := rfl

theorem fillFree_cons_active (position : Vector2) (color : Color) (rand : Nat → Nat) (n k : Nat)
    (q : Particle) (qs : List Particle) (h : q.active = true) :
    fillFree position color rand n k (q :: qs) = q :: fillFree position color rand n k qs := by
  simp [fillFree, h]

theorem fillFree_cons_free_zero (position : Vector2) (color : Color) (rand : Nat → Nat) (k : Nat)
    (q : Particle) (qs : List Particle) (h : q.active = false) :
    fillFree position color rand 0 k (q :: qs) = q :: qs := by
  simp [fillFree, h]

theorem fillFree_cons_free_succ (position : Vector2) (color : Color) (rand : Nat → Nat) (m k : Nat)
    (q : Particle) (qs : List Particle) (h : q.active = false) :
    fillFree position color rand (m + 1) k (q :: qs)
      = newParticle position color (rand k) (rand (k + 1))
          :: fillFree position color rand m (k + 2) qs := by
  simp [fillFree, h]

theorem claimSlot_none (p : Particle) (ps : List Particle) (h : claimSlot p ps = none) (n k : Nat)
    (position : Vector2) (color : Color) (rand : Nat → Nat) :
    fillFree position color rand n k ps = ps := by
  induction ps with
  | nil => rfl
  | cons q qs ih =>
    unfold claimSlot at h
    split at h
    · rename_i hq
      simp only [Option.map_eq_none'] at h
      rw [fillFree_cons_active _ _ _ _ _ _ _ hq, ih h]
    · simp at h

theorem claimSlot_some (position : Vector2) (color : Color) (rand : Nat → Nat) (n k : Nat)
    (ps ps1 : List Particle)
    (h : claimSlot (newParticle position color (rand k) (rand (k + 1))) ps = some ps1) :
    fillFree position color rand (n + 1) k ps = fillFree position color rand n (k + 2) ps1 := by
  induction ps generalizing ps1 with
  | nil => simp [claimSlot] at h
  | cons q qs ih =>
    unfold claimSlot at h
    split at h
    · rename_i hq
      simp only [Option.map_eq_some'] at h
      obtain ⟨r, hr, rfl⟩ := h
      rw [fillFree_cons_active _ _ _ _ _ _ _ hq, fillFree_cons_active _ _ _ _ _ _ _ hq, ih r hr]
    · rename_i hq
      simp only [Option.some.injEq] at h
      subst h
      rw [fillFree_cons_free_succ _ _ _ _ _ _ _ (by simpa using hq),
        fillFree_cons_active _ _ _ _ _ _ _ (newParticle_active _ _ _ _)]

theorem spawnLoop_eq_fillFree (position : Vector2) (color : Color) (rand : Nat → Nat) (n k : Nat)
    (ps : List Particle) :
    spawnLoop position color rand n k ps = fillFree position color rand n k ps := by
  induction n generalizing k ps with
  | zero =>
    unfold spawnLoop
    induction ps with
    | nil => rfl
    | cons q qs ih =>
      cases hq : q.active
      · rw [fillFree_cons_free_zero _ _ _ _ _ _ hq]
      · rw [fillFree_cons_active _ _ _ _ _ _ _ hq, ← ih]
  | succ n ih =>
    unfold spawnLoop
    split
    · rename_i ps1 h1
      rw [ih, claimSlot_some _ _ _ _ _ _ _ h1]
    · rename_i h1
      rw [ih, claimSlot_none _ _ h1, claimSlot_none _ _ h1]

theorem fillFree_length (position : Vector2) (color : Color) (rand : Nat → Nat) (n k : Nat)
    (ps : List Particle) : (fillFree position color rand n k ps).length = ps.length := by
  induction ps generalizing n k with
  | nil => rfl
  | cons q qs ih =>
    cases hq : q.active
    · cases n with
      | zero => rw [fillFree_cons_free_zero _ _ _ _ _ _ hq]
      | succ m => rw [fillFree_cons_free_succ _ _ _ _ _ _ _ hq, List.length_cons, ih, List.length_cons]
    · rw [fillFree_cons_active _ _ _ _ _ _ _ hq, List.length_cons, ih, List.length_cons]

theorem fillFree_get (position : Vector2) (color : Color) (rand : Nat → Nat) (n k : Nat)
    (ps : List Particle) (j : Nat) (p : Particle) (h : ps[j]? = some p) :
    (p.active = false ∧ freeSlots (ps.take j) < n →
      ∃ r1 r2, (fillFree position color rand n k ps)[j]? = some (newParticle position color r1 r2)) ∧
    (¬ (p.active = false ∧ freeSlots (ps.take j) < n) →
      (fillFree position color rand n k ps)[j]? = some p) := by
  induction ps generalizing n k j with
  | nil => simp at h
  | cons q qs ih =>
    cases j with
    | zero =>
      simp only [List.getElem?_cons_zero, Option.some.injEq] at h
      subst h
      cases hq : q.active
      · cases n with
        | zero =>
          rw [fillFree_cons_free_zero _ _ _ _ _ _ hq]
          simp [freeSlots]
        | succ m =>
          rw [fillFree_cons_free_succ _ _ _ _ _ _ _ hq]
          simp [freeSlots]
      · rw [fillFree_cons_active _ _ _ _ _ _ _ hq]
        simp
    | succ i =>
      simp only [List.getElem?_cons_succ] at h
      cases hq : q.active
      · have hf : freeSlots ((q :: qs).take (i + 1)) = freeSlots (qs.take i) + 1 := by
          simp [freeSlots, List.countP_cons, hq]
        cases n with
        | zero =>
          rw [fillFree_cons_free_zero _ _ _ _ _ _ hq]
          simp [h]
        | succ m =>
          rw [fillFree_cons_free_succ _ _ _ _ _ _ _ hq, hf]
          simp only [List.getElem?_cons_succ, Nat.add_lt_add_iff_right]
          exact ih m (k + 2) i h
      · have hf : freeSlots ((q :: qs).take (i + 1)) = freeSlots (qs.take i) := by
          simp [freeSlots, List.countP_cons, hq]
        rw [fillFree_cons_active _ _ _ _ _ _ _ hq, hf]
        simp only [List.getElem?_cons_succ]
        exact ih n k i h

theorem fillFree_active (position : Vector2) (color : Color) (rand : Nat → Nat) (n k : Nat)
    (ps : List Particle) :
    activeParticles (fillFree position color rand n k ps) = activeParticles ps + min n (freeSlots ps) := by
  induction ps generalizing n k with
  | nil => simp [fillFree, activeParticles, freeSlots]
  | cons q qs ih =>
    cases hq : q.active
    · cases n with
      | zero =>
        rw [fillFree_cons_free_zero _ _ _ _ _ _ hq]
        simp
      | succ m =>
        rw [fillFree_cons_free_succ _ _ _ _ _ _ _ hq]
        have := ih m (k + 2)
        simp only [activeParticles, freeSlots, List.countP_cons, hq, newParticle_active] at this ⊢
        simp only [Bool.not_false, if_true, Bool.false_eq_true, if_false, Nat.add_zero]
        rw [this, Nat.min_def, Nat.min_def]
        split <;> split <;> omega
    · rw [fillFree_cons_active _ _ _ _ _ _ _ hq]
      have := ih n k
      simp only [activeParticles, freeSlots, List.countP_cons, hq] at this ⊢
      simp only [Bool.not_true, if_true, Bool.false_eq_true, if_false, Nat.add_zero]
      rw [this]
      omega

theorem active_add_free (ps : List Particle) : activeParticles ps + freeSlots ps = ps.length := by
  induction ps with
  | nil => rfl
  | cons q qs ih =>
    cases hq : q.active <;>
      simp only [activeParticles, freeSlots, List.countP_cons, hq, List.length_cons] at ih ⊢ <;>
      simp <;> omega

/-- C4: on a pool of 200 slots `SpawnParticles(position, count, color)`
claims the free slots that have fewer than `count` free slots before them,
that is the `min(count, free slots)` free slots of lowest index: each gets the
given position and colour, radius 3, lifespan 1, fade 1 and is active; every
other slot is unchanged. The number of active particles afterwards is the
previous one plus `min(count, free slots)`, which is
`min(200, previous + count)` and at most 200. -/
theorem spawn_claims_first_free_slots (position : Vector2) (count : Int) (color : Color)
    (rand : Nat → Nat) (ps : List Particle) (hlen : ps.length = MAX_PARTICLES) (hc : 0 ≤ count) :
    (SpawnParticles position count color rand ps).length = MAX_PARTICLES ∧
    (∀ (j : Nat) (p : Particle), ps[j]? = some p →
      (p.active = false ∧ (freeSlots (ps.take j) : Int) < count →
        ∃ q, (SpawnParticles position count color rand ps)[j]? = some q ∧
          q.position = position ∧ q.color = color ∧ q.radius = 3 ∧ q.lifespan = 1 ∧ q.fade = 1 ∧
          q.active = true) ∧
      (¬ (p.active = false ∧ (freeSlots (ps.take j) : Int) < count) →
        (SpawnParticles position count color rand ps)[j]? = some p)) ∧
    activeParticles (SpawnParticles position count color rand ps)
      = activeParticles ps + min count.toNat (freeSlots ps) ∧
    activeParticles (SpawnParticles position count color rand ps)
      = min 200 (activeParticles ps + count.toNat) ∧
    activeParticles (SpawnParticles position count color rand ps) ≤ 200 := by
  have hout : SpawnParticles position count color rand ps
      = fillFree position color rand count.toNat 0 ps := spawnLoop_eq_fillFree _ _ _ _ _ _
  have hact := fillFree_active position color rand count.toNat 0 ps
  have hsum := active_add_free ps
  have h200 : ps.length = 200 := hlen
  rw [hout]
  refine ⟨by rw [fillFree_length]; exact hlen, ?_, hact, ?_, ?_⟩
  · intro j p hj
    have hlt : ((freeSlots (ps.take j) : Int) < count) ↔ freeSlots (ps.take j) < count.toNat := by
      omega
    rw [hlt]
    obtain ⟨h1, h2⟩ := fillFree_get position color rand count.toNat 0 ps j p hj
    refine ⟨fun hcond => ?_, h2⟩
    obtain ⟨r1, r2, hr⟩ := h1 hcond
    exact ⟨_, hr, rfl, rfl, rfl, rfl, rfl, rfl⟩
  · rw [hact, Nat.min_def, Nat.min_def]
    split <;> split <;> omega
  · rw [hact, Nat.min_def]
    split <;> omega

/-- Witness of C4: twenty particles spawned in a pool with two active slots. -/
theorem spawn_claims_first_free_slots_witness :
    samplePool.length = MAX_PARTICLES ∧ (0 : Int) ≤ 20 ∧
    activeParticles (SpawnParticles ⟨5, 7⟩ 20 GREEN (fun _ => 0) samplePool)
      = min 200 (activeParticles samplePool + (20 : Int).toNat) :=
  ⟨by decide!, by decide,
    (spawn_claims_first_free_slots ⟨5, 7⟩ 20 GREEN (fun _ => 0) samplePool (by decide!)
      (by decide)).2.2.2.1⟩

/-! ## Restart, level clear and ball loss -/

theorem fade_all_active (l : List Brick) (h : ∀ b ∈ l, b.active = true) :
    ∀ b ∈ l.map fadeBrick, b.active = true := by
  intro b hb
  obtain ⟨c, hc, rfl⟩ := List.mem_map.mp hb
  rw [fadeBrick_active]
  exact h c hc

theorem resetGame_all_active (t : Game) : ∀ b ∈ (ResetGame t).bricks, b.active = true := by
  intro b hb
  obtain ⟨c, _, rfl⟩ := List.mem_map.mp hb
  rfl

/-- C5: in `GameOver` state a frame update in which space is pressed yields
score 0, level 1, lives 3, speedIncrement 0, bricksLeft 25, every brick of the
grid active, and `gameState = Init`. -/
theorem restart_resets_everything (inp : FrameInput) (s : Game)
    (h : s.gameState = GameState.GameOver) (hsp : inp.space = true) :
    (UpdateGameFrame inp s).score = 0 ∧ (UpdateGameFrame inp s).level = 1 ∧
    (UpdateGameFrame inp s).lives = 3 ∧ (UpdateGameFrame inp s).speedIncrement = 0 ∧
    (UpdateGameFrame inp s).bricksLeft = 25 ∧
    (∀ b ∈ (UpdateGameFrame inp s).bricks, b.active = true) ∧
    (UpdateGameFrame inp s).bricks.length = s.bricks.length ∧
    (UpdateGameFrame inp s).gameState = GameState.Init := by
  have h1 : (HandleArrowKeysPressed inp s).gameState = GameState.GameOver := by
    rw [arrow_gameState]; exact h
  have hk : afterKeys inp s = HandleBricksFade
      { ResetGame (HandleArrowKeysPressed inp s) with
        score := 0, speedIncrement := 0, level := 1, lives := 3 } := by
    unfold afterKeys HandleSpaceKeyPressed
    rw [if_pos hsp, h1]
    rfl
  have hf : UpdateGameFrame inp s = afterKeys inp s := by
    apply frame_of_idle
    rw [hk]
    exact GameState.noConfusion
  rw [hf, hk]
  refine ⟨rfl, rfl, rfl, rfl, rfl, ?_, ?_, rfl⟩
  · exact fade_all_active _ (resetGame_all_active _)
  · show ((ResetGame (HandleArrowKeysPressed inp s)).bricks.map fadeBrick).length = _
    rw [List.length_map]
    show ((HandleArrowKeysPressed inp s).bricks.map _).length = _
    rw [List.length_map, arrow_bricks]

/-- Witness of C5: space pressed in the state after three lost balls. -/
theorem restart_resets_everything_witness :
    gameOverState.gameState = GameState.GameOver ∧ keySpace.space = true ∧
    (UpdateGameFrame keySpace gameOverState).lives = 3 ∧
    (UpdateGameFrame keySpace gameOverState).gameState = GameState.Init :=
  ⟨gameOverState_gameState, rfl,
    (restart_resets_everything keySpace gameOverState gameOverState_gameState rfl).2.2.1,
    (restart_resets_everything keySpace gameOverState gameOverState_gameState rfl).2.2.2.2.2.2.2⟩

theorem truncToInt_add_one (n : Int) : truncToInt ((n : ℚ) + SPEED_INCREMENT) = n + 1 := by
  unfold truncToInt SPEED_INCREMENT
  have e : ((n : ℚ) + 1) = (((n + 1 : Int)) : ℚ) := by push_cast; rfl
  rw [e]
  split
  · exact Int.floor_intCast _
  · exact Int.ceil_intCast _

theorem borders_false_eq (t : Game) (h : (HandleBordersCollision t).2 = false) :
    (HandleBordersCollision t).1 = { t with ball := bounceOffWalls t.ball } := by
  unfold HandleBordersCollision at h ⊢
  dsimp only at h ⊢
  split
  · rename_i hc
    rw [if_pos hc] at h
    exact absurd h Bool.noConfusion
  · rfl

theorem lastBrickState_hit : brickHit noKey lastBrickState = true := by
  decide!

theorem bounceOffWalls_y (b : Ball) (h : b.position.y > HEIGHT - BALL_RADIUS) :
    (bounceOffWalls b).position.y = b.position.y := by
  have h10 : ¬ b.position.y < BALL_RADIUS := by
    unfold HEIGHT BALL_RADIUS at *
    intro h2
    linarith
  unfold bounceOffWalls
  dsimp only
  split_ifs <;> rfl

theorem bounceOffWalls_active (b : Ball) :
    (bounceOffWalls b).active = b.active ∧ (bounceOffWalls b).radius = b.radius := by
  unfold bounceOffWalls
  dsimp only
  split_ifs <;> exact ⟨rfl, rfl⟩

/-- A `Running` frame that starts with the ball below `HEIGHT - BALL_RADIUS`
ends in `HandleBottomCollision`. -/
theorem frame_of_fallen_ball (inp : FrameInput) (s : Game) (h : s.gameState = GameState.Running)
    (hy : s.ball.position.y > HEIGHT - BALL_RADIUS) :
    bottomLoss inp s = true ∧
    UpdateGameFrame inp s = HandleBottomCollision
      { UpdateParticles inp.frameTime (HandleArrowKeysPressed inp s) with
        ball := bounceOffWalls s.ball } := by
  have hk := afterKeys_running inp s h
  have hb : (HandleArrowKeysPressed inp s).ball = s.ball := by
    obtain ⟨x, hx⟩ := arrow_eq inp s
    rw [hx]
  have hc : ({ UpdateParticles inp.frameTime (HandleArrowKeysPressed inp s) with
      ball := bounceOffWalls (UpdateParticles inp.frameTime (HandleArrowKeysPressed inp s)).ball }
      : Game).ball.position.y > HEIGHT - BALL_RADIUS := by
    show (bounceOffWalls (HandleArrowKeysPressed inp s).ball).position.y > _
    rw [hb, bounceOffWalls_y _ hy]
    exact hy
  have e : afterBorders inp s = (HandleBottomCollision
      { UpdateParticles inp.frameTime (HandleArrowKeysPressed inp s) with
        ball := bounceOffWalls s.ball }, true) := by
    unfold afterBorders
    rw [hk]
    unfold HandleBordersCollision
    dsimp only
    rw [if_pos hc]
    show (HandleBottomCollision { UpdateParticles inp.frameTime (HandleArrowKeysPressed inp s) with
      ball := bounceOffWalls (HandleArrowKeysPressed inp s).ball }, true) = _
    rw [hb]
  have hl : bottomLoss inp s = true := by
    unfold bottomLoss
    rw [e, afterKeys_gameState_running inp s h]
    rfl
  refine ⟨hl, ?_⟩
  rw [frame_of_bottomLoss inp s hl, e]

/-- C7: in a `Running` state with `lives = 1` and the ball below the bottom
boundary (`ball.position.y > HEIGHT - BALL_RADIUS`, which the border check then
finds), the frame update sets `gameState = GameOver` and `ball.active = false`
and leaves score and level unchanged. -/
theorem last_ball_lost_is_game_over (inp : FrameInput) (s : Game)
    (h : s.gameState = GameState.Running) (hlives : s.lives = 1)
    (hy : s.ball.position.y > HEIGHT - BALL_RADIUS) :
    bottomLoss inp s = true ∧
    (UpdateGameFrame inp s).gameState = GameState.GameOver ∧
    (UpdateGameFrame inp s).ball.active = false ∧
    (UpdateGameFrame inp s).score = s.score ∧
    (UpdateGameFrame inp s).level = s.level := by
  obtain ⟨hl, e⟩ := frame_of_fallen_ball inp s h hy
  obtain ⟨x, hx⟩ := arrow_eq inp s
  rw [e, hx]
  unfold HandleBottomCollision
  dsimp only
  have hn : ¬ (PlaySound Sound.looseSound
      { UpdateParticles inp.frameTime { s with bar := { s.bar with x := x } } with
        ball := bounceOffWalls s.ball }).lives > 1 := by
    show ¬ s.lives > 1
    rw [hlives]; decide
  rw [if_neg hn]
  exact ⟨hl, rfl, rfl, rfl, rfl⟩

theorem lastBallDroppedState_facts :
    lastBallDroppedState.gameState = GameState.Running ∧ lastBallDroppedState.lives = 1 ∧
      lastBallDroppedState.ball.position.y > HEIGHT - BALL_RADIUS :=
  ⟨rfl, rfl, by decide!⟩

/-- Witness of C7: the third ball is below the screen. -/
theorem last_ball_lost_is_game_over_witness :
    lastBallDroppedState.gameState = GameState.Running ∧ lastBallDroppedState.lives = 1 ∧
    lastBallDroppedState.ball.position.y > HEIGHT - BALL_RADIUS ∧
    (UpdateGameFrame noKey lastBallDroppedState).gameState = GameState.GameOver :=
  ⟨lastBallDroppedState_facts.1, lastBallDroppedState_facts.2.1, lastBallDroppedState_facts.2.2,
    (last_ball_lost_is_game_over noKey lastBallDroppedState lastBallDroppedState_facts.1
      lastBallDroppedState_facts.2.1 lastBallDroppedState_facts.2.2).2.1⟩

/-- C9: in a `Running` state with `lives > 1` and the ball below the bottom
boundary, the frame update decrements lives by one, sets `gameState = Init`,
leaves score, level and speedIncrement unchanged, deactivates every particle,
reactivates every brick with `bricksLeft = 25`, and leaves the ball active at
`(WIDTH / 2, INITIAL_BAR_Y - BALL_RADIUS) = (512, 681.2)` with velocity
`(0, BALL_SPEED + speedIncrement)`; nothing else happens to the ball in that
frame, and the only sounds played are the loss and the reset sound. -/
theorem ball_lost_with_lives_left (inp : FrameInput) (s : Game)
    (h : s.gameState = GameState.Running) (hlives : s.lives > 1)
    (hy : s.ball.position.y > HEIGHT - BALL_RADIUS) :
    bottomLoss inp s = true ∧
    (UpdateGameFrame inp s).lives = s.lives - 1 ∧
    (UpdateGameFrame inp s).gameState = GameState.Init ∧
    (UpdateGameFrame inp s).score = s.score ∧
    (UpdateGameFrame inp s).level = s.level ∧
    (UpdateGameFrame inp s).speedIncrement = s.speedIncrement ∧
    (∀ p ∈ (UpdateGameFrame inp s).particles, p.active = false) ∧
    (UpdateGameFrame inp s).particles.length = s.particles.length ∧
    (∀ b ∈ (UpdateGameFrame inp s).bricks, b.active = true) ∧
    (UpdateGameFrame inp s).bricks.length = s.bricks.length ∧
    (UpdateGameFrame inp s).bricksLeft = 25 ∧
    (UpdateGameFrame inp s).ball.active = true ∧
    (UpdateGameFrame inp s).ball.position = ⟨WIDTH / 2, INITIAL_BAR_Y - BALL_RADIUS⟩ ∧
    (UpdateGameFrame inp s).ball.position = ⟨512, 3406 / 5⟩ ∧
    (UpdateGameFrame inp s).ball.velocity = ⟨0, BALL_SPEED + (s.speedIncrement : ℚ)⟩ ∧
    (UpdateGameFrame inp s).sounds = Sound.resetSound :: Sound.looseSound :: s.sounds := by
  obtain ⟨hl, e⟩ := frame_of_fallen_ball inp s h hy
  obtain ⟨x, hx⟩ := arrow_eq inp s
  rw [e, hx]
  unfold HandleBottomCollision
  dsimp only
  have hn : (PlaySound Sound.looseSound
      { UpdateParticles inp.frameTime { s with bar := { s.bar with x := x } } with
        ball := bounceOffWalls s.ball }).lives > 1 := hlives
  rw [if_pos hn]
  refine ⟨hl, ?_, ?_, ?_, ?_, ?_, ?_, ?_, ?_, ?_, ?_, ?_, ?_, ?_, ?_, ?_⟩
  · rfl
  · rfl
  · rfl
  · rfl
  · rfl
  · intro p hp
    obtain ⟨c, _, rfl⟩ := List.mem_map.mp hp
    rfl
  · show ((s.particles.map (updateParticle inp.frameTime)).map _).length = _
    rw [List.length_map, List.length_map]
  · intro b hb
    obtain ⟨c, _, rfl⟩ := List.mem_map.mp hb
    rfl
  · show (s.bricks.map _).length = _
    rw [List.length_map]
  · rfl
  · rfl
  · rfl
  · show (⟨INITIAL_BALL_X, INITIAL_BALL_Y⟩ : Vector2) = _
    decide!
  · rfl
  · rfl

theorem droppedState_facts :
    droppedState.gameState = GameState.Running ∧ droppedState.lives = 3 ∧
      droppedState.ball.position.y > HEIGHT - BALL_RADIUS :=
  ⟨rfl, rfl, by decide!⟩

/-- Witness of C9: the first ball is below the screen. -/
theorem ball_lost_with_lives_left_witness :
    droppedState.gameState = GameState.Running ∧ droppedState.lives > 1 ∧
    droppedState.ball.position.y > HEIGHT - BALL_RADIUS ∧
    (UpdateGameFrame keyRight droppedState).lives = droppedState.lives - 1 :=
  ⟨droppedState_facts.1, by rw [droppedState_facts.2.1]; decide, droppedState_facts.2.2,
    (ball_lost_with_lives_left keyRight droppedState droppedState_facts.1
      (by rw [droppedState_facts.2.1]; decide) droppedState_facts.2.2).2.1⟩

/-! ## Lives -/

theorem livesOk_of_eq (s t : Game) (hl : t.lives = s.lives) (hg : t.gameState = s.gameState)
    (h : livesOk s) : livesOk t := by
  unfold livesOk at *
  rw [hl, hg]
  exact h

theorem livesOk_arrow (inp : FrameInput) (s : Game) (h : livesOk s) :
    livesOk (HandleArrowKeysPressed inp s) := by
  obtain ⟨x, hx⟩ := arrow_eq inp s
  rw [hx]
  exact livesOk_of_eq s _ rfl rfl h

theorem livesOk_space (inp : FrameInput) (s : Game) (h : livesOk s) :
    livesOk (HandleSpaceKeyPressed inp s) := by
  unfold HandleSpaceKeyPressed
  split
  · split
    · exact ⟨h.1, h.2.1, fun hg => GameState.noConfusion hg⟩
    · exact h
    · refine ⟨?_, ?_, fun hg => GameState.noConfusion hg⟩
      · show (1 : Int) ≤ 3
        decide
      · show (3 : Int) ≤ 3
        decide
  · exact h

theorem livesOk_bottom (s : Game) (h : livesOk s) : livesOk (HandleBottomCollision s) := by
  unfold HandleBottomCollision
  dsimp only
  split
  · rename_i hc
    have hc1 : s.lives > 1 := hc
    have h2 := h.2.1
    refine ⟨?_, ?_, fun hg => GameState.noConfusion hg⟩
    · show 1 ≤ s.lives - 1
      omega
    · show s.lives - 1 ≤ 3
      omega
  · rename_i hc
    have hc1 : ¬ s.lives > 1 := hc
    have h1 := h.1
    refine ⟨h.1, h.2.1, fun _ => ?_⟩
    show s.lives = 1
    omega

theorem livesOk_borders (s : Game) (h : livesOk s) : livesOk (HandleBordersCollision s).1 := by
  unfold HandleBordersCollision
  dsimp only
  generalize bounceOffWalls s.ball = b3
  split
  · exact livesOk_bottom _ (livesOk_of_eq s _ rfl rfl h)
  · exact livesOk_of_eq s _ rfl rfl h

theorem livesOk_bar (s : Game) (h : livesOk s) : livesOk (HandleBarCollision s) := by
  unfold HandleBarCollision
  split
  · exact h
  · exact livesOk_of_eq s _ rfl rfl h

theorem livesOk_bricks (rand : Nat → Nat) (s : Game) (h : livesOk s) :
    livesOk (HandleBricksCollision rand s).1 := by
  rcases bricksCollision_cases rand s with hc | ⟨_, k, b, hk, _, _, heq⟩
  · rw [hc.2]; exact h
  · obtain ⟨_, _, _, _, d5, _, _, _, d9, _⟩ :=
      destroyBrick_fields rand k { s with ball := bounceOffBrick s.ball b } b hk
    rw [heq]
    exact livesOk_of_eq s _ d9 d5 h

theorem livesOk_level (s : Game) (h : livesOk s) : livesOk (CheckForNextLevel s) := by
  unfold CheckForNextLevel
  split
  · exact ⟨h.1, h.2.1, fun hg => GameState.noConfusion hg⟩
  · exact h

theorem livesOk_frame (inp : FrameInput) (s : Game) (h : livesOk s) :
    livesOk (UpdateGameFrame inp s) :=
  frame_preserves livesOk livesOk_arrow livesOk_space
    (fun s h => livesOk_of_eq s _ rfl rfl h) (fun _ s h => livesOk_of_eq s _ rfl rfl h)
    livesOk_borders livesOk_bar livesOk_bricks livesOk_level
    (fun s h => livesOk_of_eq s _ rfl rfl h) inp s h

theorem livesOk_init : livesOk InitGame :=
  ⟨by decide, by decide, fun hg => GameState.noConfusion hg⟩

/-- C8, as stated, fails: the state after three lost balls is reachable, has
`gameState = GameOver`, and its lives counter is 1, not 0. -/
theorem game_over_with_one_life :
    Reachable gameOverState ∧ gameOverState.gameState = GameState.GameOver ∧
      gameOverState.lives = 1 ∧ gameOverState.lives ≠ 0 :=
  ⟨gameOverState_reachable, rfl, rfl, by decide⟩

/-- C8, amended: lives start at 3, and in every reachable state
`1 <= lives <= 3`; in every reachable state with `gameState = GameOver`,
`lives = 1`: the ball lost with `lives = 1` ends the game and leaves the
counter at 1. -/
theorem lives_between_one_and_three (s : Game) (h : Reachable s) :
    InitGame.lives = 3 ∧ 1 ≤ s.lives ∧ s.lives ≤ 3 ∧
    (s.gameState = GameState.GameOver → s.lives = 1) ∧
    (∀ inp : FrameInput, s.gameState = GameState.Running → s.lives = 1 →
      s.ball.position.y > HEIGHT - BALL_RADIUS →
      (UpdateGameFrame inp s).gameState = GameState.GameOver ∧ (UpdateGameFrame inp s).lives = 1) := by
  have hinv := reachable_induction livesOk livesOk_init livesOk_frame s h
  refine ⟨rfl, hinv.1, hinv.2.1, hinv.2.2, ?_⟩
  intro inp hr hlives hy
  have hf := livesOk_frame inp s hinv
  obtain ⟨_, e⟩ := frame_of_fallen_ball inp s hr hy
  have hg : (UpdateGameFrame inp s).gameState = GameState.GameOver := by
    rw [e]
    unfold HandleBottomCollision
    dsimp only
    have hn : ¬ (PlaySound Sound.looseSound
        { UpdateParticles inp.frameTime (HandleArrowKeysPressed inp s) with
          ball := bounceOffWalls s.ball }).lives > 1 := by
      obtain ⟨x, hx⟩ := arrow_eq inp s
      rw [hx]
      show ¬ s.lives > 1
      rw [hlives]; decide
    rw [if_neg hn]
  exact ⟨hg, hf.2.2 hg⟩

/-- Witness of C8 (amended): the state after three lost balls. -/
theorem lives_between_one_and_three_witness :
    Reachable gameOverState ∧ 1 ≤ gameOverState.lives ∧ gameOverState.lives ≤ 3 ∧
    (gameOverState.gameState = GameState.GameOver → gameOverState.lives = 1) :=
  ⟨gameOverState_reachable,
    (lives_between_one_and_three gameOverState gameOverState_reachable).2.1,
    (lives_between_one_and_three gameOverState gameOverState_reachable).2.2.1,
    (lives_between_one_and_three gameOverState gameOverState_reachable).2.2.2.1⟩

/-! ## The paddle -/

/-- C10 fails on the code: with the left key held for 44 frames from
`InitGame` the paddle is at `bar.x = -3`, left of the screen; with the right
key held for 44 frames it is at `bar.x = 877` and its right edge at 1027,
right of the screen (`WIDTH = 1024`). The guards `bar.x > 0` and
`bar.x < WIDTH - bar.width` are tested before a step of 10, from 437. -/
theorem paddle_leaves_screen :
    Reachable (runFrames leftInputs InitGame) ∧
    (runFrames leftInputs InitGame).bar.x = -3 ∧
    ¬ (0 ≤ (runFrames leftInputs InitGame).bar.x) ∧
    Reachable (runFrames rightInputs InitGame) ∧
    (runFrames rightInputs InitGame).bar.x = 877 ∧
    ¬ ((runFrames rightInputs InitGame).bar.x + (runFrames rightInputs InitGame).bar.width ≤ WIDTH) := by
  refine ⟨reachable_runFrames _ _ Reachable.init, ?_, ?_, reachable_runFrames _ _ Reachable.init,
    ?_, ?_⟩ <;> decide!

/-! ## The paddle bounce -/

/-- C11: when the ball circle intersects the paddle rectangle,
`HandleBarCollision` puts the ball at the fixed height `INITIAL_BALL_Y`
(`INITIAL_BAR_Y - BALL_RADIUS = 681.2`, the paddle top minus the ball radius),
negates `velocity.y`, sets `velocity.x` to the offset of the ball from the
paddle centre times 0.05 and leaves `position.x`, the radius and the active
flag unchanged; a ball at the paddle centre gets `velocity.x = 0`. When they
do not intersect, nothing changes. -/
theorem bar_collision_effect (s : Game) :
    (CheckCollisionCircleRec s.ball.position s.ball.radius s.bar = true →
      (HandleBarCollision s).ball.position.y = INITIAL_BALL_Y ∧
      INITIAL_BALL_Y = INITIAL_BAR_Y - BALL_RADIUS ∧
      (HandleBarCollision s).ball.velocity.y = -s.ball.velocity.y ∧
      (HandleBarCollision s).ball.velocity.x
        = (s.ball.position.x - (s.bar.x + s.bar.width / 2)) * (1 / 20) ∧
      (HandleBarCollision s).ball.position.x = s.ball.position.x ∧
      (HandleBarCollision s).ball.radius = s.ball.radius ∧
      (HandleBarCollision s).ball.active = s.ball.active ∧
      (s.ball.position.x = s.bar.x + s.bar.width / 2 → (HandleBarCollision s).ball.velocity.x = 0)) ∧
    (CheckCollisionCircleRec s.ball.position s.ball.radius s.bar = false →
      HandleBarCollision s = s) := by
  constructor
  · intro h
    unfold HandleBarCollision
    rw [if_neg (by rw [h]; decide)]
    refine ⟨?_, ?_, ?_, ?_, ?_, ?_, ?_, ?_⟩
    · rfl
    · rfl
    · show s.ball.velocity.y * (-1) = _
      ring
    · rfl
    · rfl
    · rfl
    · rfl
    · intro hc
      show (s.ball.position.x - (s.bar.x + s.bar.width / 2)) * (1 / 20) = 0
      rw [hc]
      ring
  · intro h
    unfold HandleBarCollision
    rw [if_pos (by rw [h]; rfl)]

theorem initGame_ball_on_paddle :
    CheckCollisionCircleRec InitGame.ball.position InitGame.ball.radius InitGame.bar = true := by
  decide!

/-- Witness of C11: the ball of `InitGame` rests on the paddle centre. -/
theorem bar_collision_effect_witness :
    CheckCollisionCircleRec InitGame.ball.position InitGame.ball.radius InitGame.bar = true ∧
    (HandleBarCollision InitGame).ball.velocity.y = -InitGame.ball.velocity.y ∧
    (HandleBarCollision InitGame).ball.velocity.x = 0 :=
  ⟨initGame_ball_on_paddle,
    ((bar_collision_effect InitGame).1 initGame_ball_on_paddle).2.2.1,
    ((bar_collision_effect InitGame).1 initGame_ball_on_paddle).2.2.2.2.2.2.2 (by decide!)⟩

/-! ## State transitions -/

theorem bar_gameState (t : Game) : (HandleBarCollision t).gameState = t.gameState := by
  unfold HandleBarCollision
  split <;> rfl

theorem bricksCollision_gameState (rand : Nat → Nat) (t : Game) :
    (HandleBricksCollision rand t).1.gameState = t.gameState := by
  rcases bricksCollision_cases rand t with h | ⟨_, k, b, hk, _, _, heq⟩
  · rw [h.2]
  · rw [heq]
    exact (destroyBrick_fields rand k { t with ball := bounceOffBrick t.ball b } b hk).2.2.2.2.1

theorem afterBricks_gameState (inp : FrameInput) (s : Game)
    (hr : (afterKeys inp s).gameState = GameState.Running) (h1 : (afterBorders inp s).2 = false) :
    (afterBricks inp s).1.gameState = GameState.Running := by
  unfold afterBricks
  rw [bricksCollision_gameState, bar_gameState]
  have e : (afterBorders inp s).1 = _ := borders_false_eq _ h1
  rw [e]
  exact hr

theorem bottom_gameState (t : Game) :
    ((HandleBottomCollision t).gameState = GameState.Init ∧
      (HandleBottomCollision t).ball.position = ⟨INITIAL_BALL_X, INITIAL_BALL_Y⟩) ∨
    (HandleBottomCollision t).gameState = GameState.GameOver := by
  unfold HandleBottomCollision
  dsimp only
  split
  · left; exact ⟨rfl, rfl⟩
  · right; rfl

theorem level_gameState (t : Game) :
    ((CheckForNextLevel t).gameState = GameState.Init ∧
      (CheckForNextLevel t).ball.position = ⟨INITIAL_BALL_X, INITIAL_BALL_Y⟩) ∨
    (CheckForNextLevel t).gameState = t.gameState := by
  unfold CheckForNextLevel
  split
  · left; exact ⟨rfl, rfl⟩
  · right; rfl

/-- What the `Running` block of a frame can end in. -/
theorem running_block_end (inp : FrameInput) (s : Game)
    (hr : (afterKeys inp s).gameState = GameState.Running) :
    ((UpdateGameFrame inp s).gameState = GameState.Init ∧
      (UpdateGameFrame inp s).ball.position = ⟨INITIAL_BALL_X, INITIAL_BALL_Y⟩) ∨
    ((UpdateGameFrame inp s).gameState = GameState.GameOver ∧ bottomLoss inp s = true) ∨
    (UpdateGameFrame inp s).gameState = GameState.Running := by
  by_cases hl : bottomLoss inp s = true
  · rw [frame_of_bottomLoss inp s hl]
    have h2 : (afterBorders inp s).2 = true := by
      unfold bottomLoss at hl
      simp only [Bool.and_eq_true, decide_eq_true_eq] at hl
      exact hl.2
    have e : (afterBorders inp s).1 = HandleBottomCollision
        { UpdateParticles inp.frameTime (afterKeys inp s) with
          ball := bounceOffWalls (UpdateParticles inp.frameTime (afterKeys inp s)).ball } := by
      unfold afterBorders HandleBordersCollision at h2 ⊢
      dsimp only at h2 ⊢
      split
      · rfl
      · rename_i hc
        rw [if_neg hc] at h2
        exact absurd h2 Bool.noConfusion
    rw [e]
    rcases bottom_gameState { UpdateParticles inp.frameTime (afterKeys inp s) with
        ball := bounceOffWalls (UpdateParticles inp.frameTime (afterKeys inp s)).ball } with h | h
    · exact Or.inl h
    · exact Or.inr (Or.inl ⟨h, hl⟩)
  · have hl0 : bottomLoss inp s = false := by simpa using hl
    have h1 : (afterBorders inp s).2 = false := by
      unfold bottomLoss at hl0
      simpa [hr] using hl0
    have hg := afterBricks_gameState inp s hr h1
    by_cases hh : brickHit inp s = true
    · rw [frame_of_brickHit inp s hh]
      rcases level_gameState (afterBricks inp s).1 with h | h
      · exact Or.inl h
      · exact Or.inr (Or.inr (by rw [h, hg]))
    · have hh0 : brickHit inp s = false := by simpa using hh
      rw [frame_of_move inp s hr hl0 hh0]
      exact Or.inr (Or.inr hg)

theorem space_off (inp : FrameInput) (t : Game) (h : inp.space = false) :
    HandleSpaceKeyPressed inp t = t := by
  unfold HandleSpaceKeyPressed
  rw [if_neg (by rw [h]; exact Bool.noConfusion)]

theorem space_init (inp : FrameInput) (t : Game) (h : inp.space = true)
    (hg : t.gameState = GameState.Init) :
    HandleSpaceKeyPressed inp t = { FadeInBricks t with gameState := GameState.Running } := by
  unfold HandleSpaceKeyPressed
  rw [if_pos h, hg]

theorem space_gameOver (inp : FrameInput) (t : Game) (h : inp.space = true)
    (hg : t.gameState = GameState.GameOver) :
    HandleSpaceKeyPressed inp t
      = { ResetGame t with score := 0, speedIncrement := 0, level := 1, lives := 3 } := by
  unfold HandleSpaceKeyPressed
  rw [if_pos h, hg]

theorem afterKeys_cases (inp : FrameInput) (s : Game) :
    (s.gameState = GameState.Running ∧ afterKeys inp s = HandleArrowKeysPressed inp s) ∨
    (s.gameState = GameState.Init ∧ inp.space = false ∧
      afterKeys inp s = HandleBricksFade (HandleArrowKeysPressed inp s)) ∨
    (s.gameState = GameState.Init ∧ inp.space = true ∧
      afterKeys inp s
        = { FadeInBricks (HandleArrowKeysPressed inp s) with gameState := GameState.Running }) ∨
    (s.gameState = GameState.GameOver ∧ inp.space = false ∧
      afterKeys inp s = HandleArrowKeysPressed inp s) ∨
    (s.gameState = GameState.GameOver ∧ inp.space = true ∧
      afterKeys inp s = HandleBricksFade
        { ResetGame (HandleArrowKeysPressed inp s) with
          score := 0, speedIncrement := 0, level := 1, lives := 3 }) := by
  have hg := arrow_gameState inp s
  rcases Bool.eq_false_or_eq_true inp.space with hsp | hsp
  · cases hs : s.gameState
    · right; right; right; right
      rw [hs] at hg
      refine ⟨rfl, hsp, ?_⟩
      unfold afterKeys
      rw [space_gameOver inp _ hsp hg]
      rfl
    · left
      exact ⟨rfl, afterKeys_running inp s hs⟩
    · right; right; left
      rw [hs] at hg
      refine ⟨rfl, hsp, ?_⟩
      unfold afterKeys
      rw [space_init inp _ hsp hg]
      rfl
  · cases hs : s.gameState
    · right; right; right; left
      rw [hs] at hg
      refine ⟨rfl, hsp, ?_⟩
      unfold afterKeys
      rw [space_off inp _ hsp]
      dsimp only
      rw [if_neg (by rw [hg]; exact GameState.noConfusion)]
    · left
      exact ⟨rfl, afterKeys_running inp s hs⟩
    · right; left
      rw [hs] at hg
      refine ⟨rfl, hsp, ?_⟩
      unfold afterKeys
      rw [space_off inp _ hsp]
      dsimp only
      rw [if_pos hg]

theorem bounceOffWalls_y_le (b : Ball) (h : b.position.y ≤ HEIGHT - BALL_RADIUS) :
    (bounceOffWalls b).position.y ≤ HEIGHT - BALL_RADIUS := by
  unfold bounceOffWalls
  unfold HEIGHT BALL_RADIUS at *
  dsimp only
  split_ifs <;> first | exact h | norm_num

theorem borders_no_loss (t : Game) (h : t.ball.position.y ≤ HEIGHT - BALL_RADIUS) :
    (HandleBordersCollision t).2 = false := by
  unfold HandleBordersCollision
  dsimp only
  rw [if_neg (not_lt.mpr (bounceOffWalls_y_le t.ball h))]

theorem ballPlaced_frame (inp : FrameInput) (s : Game) (h : ballPlaced s) :
    ballPlaced (UpdateGameFrame inp s) := by
  have hrun : (afterKeys inp s).gameState = GameState.Running → ballPlaced (UpdateGameFrame inp s) := by
    intro hr hi
    rcases running_block_end inp s hr with h1 | h1 | h1
    · exact h1.2
    · rw [h1.1] at hi; exact GameState.noConfusion hi
    · rw [h1] at hi; exact GameState.noConfusion hi
  obtain ⟨x, hx⟩ := arrow_eq inp s
  rcases afterKeys_cases inp s with ⟨hs, e⟩ | ⟨hs, _, e⟩ | ⟨hs, _, e⟩ | ⟨hs, _, e⟩ | ⟨hs, _, e⟩
  · exact hrun (afterKeys_gameState_running inp s hs)
  · have hf : UpdateGameFrame inp s = afterKeys inp s := by
      apply frame_of_idle
      rw [e, hx]
      show s.gameState ≠ GameState.Running
      rw [hs]; exact GameState.noConfusion
    rw [hf, e, hx]
    intro _
    exact h hs
  · exact hrun (by rw [e])
  · have hf : UpdateGameFrame inp s = afterKeys inp s := by
      apply frame_of_idle
      rw [e, hx]
      show s.gameState ≠ GameState.Running
      rw [hs]; exact GameState.noConfusion
    rw [hf, e, hx]
    intro hi
    have hi2 : s.gameState = GameState.Init := hi
    rw [hs] at hi2
    exact GameState.noConfusion hi2
  · have hf : UpdateGameFrame inp s = afterKeys inp s := by
      apply frame_of_idle
      rw [e]
      exact GameState.noConfusion
    rw [hf, e]
    intro _
    rfl

theorem ballPlaced_reachable (s : Game) (h : Reachable s) : ballPlaced s :=
  reachable_induction ballPlaced (fun _ => rfl) ballPlaced_frame s h

theorem initial_ball_y_le : INITIAL_BALL_Y ≤ HEIGHT - BALL_RADIUS := by
  decide!

/-- C12: from a reachable state a frame update leaves `gameState` unchanged
or changes it along one of `Init -> Running`, `Running -> Init`,
`Running -> GameOver`, `GameOver -> Init`; it never goes from `Init` to
`GameOver` or from `GameOver` to `Running`; and a frame that starts in `Init`
or `GameOver` without space pressed leaves `gameState` unchanged. -/
theorem frame_transitions (s : Game) (h : Reachable s) (inp : FrameInput) :
    ((UpdateGameFrame inp s).gameState = s.gameState ∨
      (s.gameState = GameState.Init ∧ (UpdateGameFrame inp s).gameState = GameState.Running) ∨
      (s.gameState = GameState.Running ∧ (UpdateGameFrame inp s).gameState = GameState.Init) ∨
      (s.gameState = GameState.Running ∧ (UpdateGameFrame inp s).gameState = GameState.GameOver) ∨
      (s.gameState = GameState.GameOver ∧ (UpdateGameFrame inp s).gameState = GameState.Init)) ∧
    ¬ (s.gameState = GameState.Init ∧ (UpdateGameFrame inp s).gameState = GameState.GameOver) ∧
    ¬ (s.gameState = GameState.GameOver ∧ (UpdateGameFrame inp s).gameState = GameState.Running) ∧
    (inp.space = false → s.gameState ≠ GameState.Running →
      (UpdateGameFrame inp s).gameState = s.gameState) := by
  have hp := ballPlaced_reachable s h
  obtain ⟨x, hx⟩ := arrow_eq inp s
  rcases afterKeys_cases inp s with ⟨hs, e⟩ | ⟨hs, hsp, e⟩ | ⟨hs, hsp, e⟩ | ⟨hs, hsp, e⟩ | ⟨hs, hsp, e⟩
  · -- Running
    refine ⟨?_, ?_, ?_, ?_⟩
    · cases hf : (UpdateGameFrame inp s).gameState
      · exact Or.inr (Or.inr (Or.inr (Or.inl ⟨hs, rfl⟩)))
      · left; rw [hs]
      · exact Or.inr (Or.inr (Or.inl ⟨hs, rfl⟩))
    · intro hc; rw [hs] at hc; exact GameState.noConfusion hc.1
    · intro hc; rw [hs] at hc; exact GameState.noConfusion hc.1
    · intro _ hn; exact absurd hs hn
  · -- Init, no space
    have hf : UpdateGameFrame inp s = afterKeys inp s := by
      apply frame_of_idle
      rw [e, hx]
      show s.gameState ≠ GameState.Running
      rw [hs]; exact GameState.noConfusion
    have hg : (UpdateGameFrame inp s).gameState = s.gameState := by
      rw [hf, e, hx]; rfl
    refine ⟨Or.inl hg, ?_, ?_, fun _ _ => hg⟩
    · intro hc; rw [hg, hs] at hc; exact GameState.noConfusion hc.2
    · intro hc; rw [hs] at hc; exact GameState.noConfusion hc.1
  · -- Init, space
    have hr : (afterKeys inp s).gameState = GameState.Running := by rw [e]
    have hnl : bottomLoss inp s = false := by
      have hb : (afterBorders inp s).2 = false := by
        unfold afterBorders
        apply borders_no_loss
        rw [e, hx]
        show s.ball.position.y ≤ _
        rw [hp hs]
        exact initial_ball_y_le
      unfold bottomLoss
      rw [hb]
      simp
    have hng : (UpdateGameFrame inp s).gameState ≠ GameState.GameOver := by
      intro hc
      rcases running_block_end inp s hr with h1 | h1 | h1
      · rw [h1.1] at hc; exact GameState.noConfusion hc
      · rw [hnl] at h1; exact Bool.noConfusion h1.2
      · rw [h1] at hc; exact GameState.noConfusion hc
    refine ⟨?_, ?_, ?_, ?_⟩
    · cases hf : (UpdateGameFrame inp s).gameState
      · exact absurd hf hng
      · exact Or.inr (Or.inl ⟨hs, rfl⟩)
      · left; rw [hs]
    · intro hc; exact hng hc.2
    · intro hc; rw [hs] at hc; exact GameState.noConfusion hc.1
    · intro hc; rw [hsp] at hc; exact Bool.noConfusion hc
  · -- GameOver, no space
    have hf : UpdateGameFrame inp s = afterKeys inp s := by
      apply frame_of_idle
      rw [e, hx]
      show s.gameState ≠ GameState.Running
      rw [hs]; exact GameState.noConfusion
    have hg : (UpdateGameFrame inp s).gameState = s.gameState := by
      rw [hf, e, hx]
    refine ⟨Or.inl hg, ?_, ?_, fun _ _ => hg⟩
    · intro hc; rw [hs] at hc; exact GameState.noConfusion hc.1
    · intro hc; rw [hg, hs] at hc; exact GameState.noConfusion hc.2
  · -- GameOver, space
    have hf : UpdateGameFrame inp s = afterKeys inp s := by
      apply frame_of_idle
      rw [e]
      exact GameState.noConfusion
    have hg : (UpdateGameFrame inp s).gameState = GameState.Init := by
      rw [hf, e]; rfl
    refine ⟨Or.inr (Or.inr (Or.inr (Or.inr ⟨hs, hg⟩))), ?_, ?_, ?_⟩
    · intro hc; rw [hs] at hc; exact GameState.noConfusion hc.1
    · intro hc; rw [hg] at hc; exact GameState.noConfusion hc.2
    · intro hc; rw [hsp] at hc; exact Bool.noConfusion hc

/-- Witness of C12: the frame that launches the ball from `InitGame`. -/
theorem frame_transitions_witness :
    Reachable InitGame ∧
    ¬ (InitGame.gameState = GameState.Init ∧
      (UpdateGameFrame keySpace InitGame).gameState = GameState.GameOver) :=
  ⟨Reachable.init, (frame_transitions InitGame Reachable.init keySpace).2.1⟩

/-! ## The speed bonus -/

theorem bottom_score (t : Game) : (HandleBottomCollision t).score = t.score := by
  unfold HandleBottomCollision
  dsimp only
  split <;> rfl

theorem borders_score (t : Game) : (HandleBordersCollision t).1.score = t.score := by
  unfold HandleBordersCollision
  dsimp only
  generalize bounceOffWalls t.ball = b3
  split
  · exact bottom_score _
  · rfl

theorem bar_score (t : Game) : (HandleBarCollision t).score = t.score := by
  unfold HandleBarCollision
  split <;> rfl

theorem level_score (t : Game) : (CheckForNextLevel t).score = t.score := by
  unfold CheckForNextLevel
  split <;> rfl

theorem bricksCollision_score (rand : Nat → Nat) (t : Game) :
    (HandleBricksCollision rand t).1.score
      = t.score + (if (HandleBricksCollision rand t).2 = true then 10 else 0) := by
  rcases bricksCollision_cases rand t with h | ⟨h, k, b, hk, _, _, heq⟩
  · rw [h.2, if_neg (by rw [h.1]; exact Bool.noConfusion)]
    simp
  · rw [if_pos h, heq]
    exact (destroyBrick_fields rand k { t with ball := bounceOffBrick t.ball b } b hk).2.2.1

theorem afterBorders_score (inp : FrameInput) (s : Game) :
    (afterBorders inp s).1.score = (afterKeys inp s).score := by
  unfold afterBorders
  rw [borders_score]
  rfl

/-- The score at the end of a frame: the score after the keys, plus 10 when
the frame destroys a brick. -/
theorem frame_score (inp : FrameInput) (s : Game) :
    (UpdateGameFrame inp s).score
      = (afterKeys inp s).score + (if brickHit inp s = true then 10 else 0) := by
  by_cases hr : (afterKeys inp s).gameState = GameState.Running
  · by_cases hl : bottomLoss inp s = true
    · have hh : brickHit inp s = false := by
        unfold bottomLoss at hl
        unfold brickHit
        simp only [Bool.and_eq_true, decide_eq_true_eq] at hl
        simp [hl.2]
      rw [frame_of_bottomLoss inp s hl, hh, afterBorders_score]
      simp
    · have hl0 : bottomLoss inp s = false := by simpa using hl
      have h1 : (afterBorders inp s).2 = false := by
        unfold bottomLoss at hl0
        simpa [hr] using hl0
      have hb : (afterBricks inp s).2 = brickHit inp s := by
        unfold brickHit
        simp [hr, h1]
      have hs := bricksCollision_score inp.rand (HandleBarCollision (afterBorders inp s).1)
      rw [bar_score, afterBorders_score] at hs
      have hs2 : (afterBricks inp s).1.score
          = (afterKeys inp s).score + (if brickHit inp s = true then 10 else 0) := by
        rw [← hb]
        exact hs
      by_cases hh : brickHit inp s = true
      · rw [frame_of_brickHit inp s hh, level_score, hs2]
      · have hh0 : brickHit inp s = false := by simpa using hh
        rw [frame_of_move inp s hr hl0 hh0]
        exact hs2
  · have hh : brickHit inp s = false := by
      unfold brickHit
      simp [hr]
    rw [frame_of_idle inp s hr, hh]
    simp

theorem afterKeys_score (inp : FrameInput) (s : Game) :
    (s.gameState = GameState.GameOver ∧ inp.space = true ∧ (afterKeys inp s).score = 0 ∧
      brickHit inp s = false) ∨
    (¬ (s.gameState = GameState.GameOver ∧ inp.space = true) ∧
      (afterKeys inp s).score = s.score) := by
  obtain ⟨x, hx⟩ := arrow_eq inp s
  rcases afterKeys_cases inp s with ⟨hs, e⟩ | ⟨hs, _, e⟩ | ⟨hs, _, e⟩ | ⟨_, hn, e⟩ | ⟨hs, hsp, e⟩
  · right
    refine ⟨fun hc => ?_, by rw [e, hx]⟩
    rw [hs] at hc; exact GameState.noConfusion hc.1
  · right
    refine ⟨fun hc => ?_, by rw [e, hx]; rfl⟩
    rw [hs] at hc; exact GameState.noConfusion hc.1
  · right
    refine ⟨fun hc => ?_, by rw [e, hx]; rfl⟩
    rw [hs] at hc; exact GameState.noConfusion hc.1
  · right
    refine ⟨fun hc => ?_, by rw [e, hx]⟩
    rw [hn] at hc; exact Bool.noConfusion hc.2
  · left
    refine ⟨hs, hsp, by rw [e]; rfl, ?_⟩
    unfold brickHit
    rw [e]
    rfl

/-- C14: a frame update leaves the score unchanged, or adds exactly 10 to
it, which happens exactly when the frame destroys a brick, or sets it to 0,
which happens only when space is pressed in `GameOver` state (and then no
brick is destroyed); so the score is a non-negative multiple of 10 in every
reachable state. -/
theorem score_steps_by_ten :
    (∀ (inp : FrameInput) (s : Game),
      ((UpdateGameFrame inp s).score = s.score ∨ (UpdateGameFrame inp s).score = s.score + 10 ∨
        (UpdateGameFrame inp s).score = 0) ∧
      (s.gameState = GameState.GameOver ∧ inp.space = true →
        (UpdateGameFrame inp s).score = 0 ∧ brickHit inp s = false) ∧
      (¬ (s.gameState = GameState.GameOver ∧ inp.space = true) →
        (UpdateGameFrame inp s).score = s.score + (if brickHit inp s = true then 10 else 0) ∧
        ((UpdateGameFrame inp s).score = s.score + 10 ↔ brickHit inp s = true))) ∧
    (∀ s : Game, Reachable s → ∃ k : Nat, s.score = 10 * (k : Int)) := by
  have step : ∀ (inp : FrameInput) (s : Game),
      (s.gameState = GameState.GameOver ∧ inp.space = true →
        (UpdateGameFrame inp s).score = 0 ∧ brickHit inp s = false) ∧
      (¬ (s.gameState = GameState.GameOver ∧ inp.space = true) →
        (UpdateGameFrame inp s).score = s.score + (if brickHit inp s = true then 10 else 0)) := by
    intro inp s
    have hf := frame_score inp s
    rcases afterKeys_score inp s with ⟨h1, h2, h3, h4⟩ | ⟨h1, h2⟩
    · refine ⟨fun _ => ⟨?_, h4⟩, fun hc => absurd ⟨h1, h2⟩ hc⟩
      rw [hf, h3, h4]
      simp
    · refine ⟨fun hc => absurd hc h1, fun _ => ?_⟩
      rw [hf, h2]
  constructor
  · intro inp s
    obtain ⟨s1, s2⟩ := step inp s
    refine ⟨?_, s1, fun hc => ⟨s2 hc, ?_⟩⟩
    · by_cases hc : s.gameState = GameState.GameOver ∧ inp.space = true
      · exact Or.inr (Or.inr (s1 hc).1)
      · have := s2 hc
        by_cases hh : brickHit inp s = true
        · rw [if_pos hh] at this
          exact Or.inr (Or.inl this)
        · rw [if_neg hh] at this
          left; rw [this]; simp
    · have := s2 hc
      by_cases hh : brickHit inp s = true
      · rw [if_pos hh] at this
        exact ⟨fun _ => hh, fun _ => this⟩
      · rw [if_neg hh] at this
        constructor
        · intro h10
          rw [this] at h10
          omega
        · intro h; exact absurd h hh
  · intro s h
    induction h with
    | init => exact ⟨0, rfl⟩
    | frame inp s _ ih =>
      obtain ⟨k, hk⟩ := ih
      obtain ⟨s1, s2⟩ := step inp s
      by_cases hc : s.gameState = GameState.GameOver ∧ inp.space = true
      · exact ⟨0, by rw [(s1 hc).1]; rfl⟩
      · have := s2 hc
        by_cases hh : brickHit inp s = true
        · rw [if_pos hh] at this
          exact ⟨k + 1, by rw [this, hk]; push_cast; ring⟩
        · rw [if_neg hh] at this
          exact ⟨k, by rw [this, hk]; simp⟩

/-! ## The ball outside `Running` -/

/-- C15: in `Init` or `GameOver` state a frame update in which space is not
pressed leaves the ball (position, velocity, radius and active flag)
unchanged. -/
theorem ball_rests_outside_running (inp : FrameInput) (s : Game)
    (h : s.gameState = GameState.Init ∨ s.gameState = GameState.GameOver)
    (hsp : inp.space = false) :
    (UpdateGameFrame inp s).ball.position = s.ball.position ∧
    (UpdateGameFrame inp s).ball.velocity = s.ball.velocity ∧
    (UpdateGameFrame inp s).ball.active = s.ball.active ∧
    (UpdateGameFrame inp s).ball = s.ball := by
  obtain ⟨x, hx⟩ := arrow_eq inp s
  have hb : (UpdateGameFrame inp s).ball = s.ball := by
    rcases afterKeys_cases inp s with ⟨hs, _⟩ | ⟨hs, _, e⟩ | ⟨_, hn, _⟩ | ⟨hs, _, e⟩ | ⟨_, hn, _⟩
    · rcases h with h | h <;> rw [hs] at h <;> exact GameState.noConfusion h
    · have hf : UpdateGameFrame inp s = afterKeys inp s := by
        apply frame_of_idle
        rw [e, hx]
        show s.gameState ≠ GameState.Running
        rw [hs]; exact GameState.noConfusion
      rw [hf, e, hx]
      rfl
    · rw [hsp] at hn; exact Bool.noConfusion hn
    · have hf : UpdateGameFrame inp s = afterKeys inp s := by
        apply frame_of_idle
        rw [e, hx]
        show s.gameState ≠ GameState.Running
        rw [hs]; exact GameState.noConfusion
      rw [hf, e, hx]
    · rw [hsp] at hn; exact Bool.noConfusion hn
  rw [hb]
  exact ⟨rfl, rfl, rfl, rfl⟩

/-- Witness of C15: a frame with the left key held in the state after three
lost balls. -/
theorem ball_rests_outside_running_witness :
    (gameOverState.gameState = GameState.Init ∨ gameOverState.gameState = GameState.GameOver) ∧
    keyLeft.space = false ∧
    (UpdateGameFrame keyLeft gameOverState).ball = gameOverState.ball :=
  ⟨Or.inr rfl, rfl, (ball_rests_outside_running keyLeft gameOverState (Or.inr rfl) rfl).2.2.2⟩

/-- Witness of C14: the score of the state after three lost balls, and the
frame that destroys the last brick of `lastBrickState`. -/
theorem score_steps_by_ten_witness :
    Reachable gameOverState ∧ (∃ k : Nat, gameOverState.score = 10 * (k : Int)) ∧
    (UpdateGameFrame noKey lastBrickState).score = lastBrickState.score + 10 :=
  ⟨gameOverState_reachable, score_steps_by_ten.2 gameOverState gameOverState_reachable,
    ((score_steps_by_ten.1 noKey lastBrickState).2.2
      (fun hc => GameState.noConfusion hc.1)).2.mpr lastBrickState_hit⟩

/-! ## The brick that is hit -/

theorem findHit_none (ball : Ball) (l : List Brick) (k0 : Nat)
    (h : ∀ b ∈ l, brickIsHit ball b = false) : findHit ball k0 l = none := by
  induction l generalizing k0 with
  | nil => rfl
  | cons x xs ih =>
    have hx := h x (List.mem_cons_self _ _)
    have hxs : ∀ b ∈ xs, brickIsHit ball b = false := fun b hb => h b (List.mem_cons_of_mem _ hb)
    unfold brickIsHit at hx
    unfold findHit
    cases ha : x.active
    · simp [ih (k0 + 1) hxs]
    · rw [ha] at hx
      simp only [Bool.true_and] at hx
      simp [hx, ih (k0 + 1) hxs]

theorem findHit_first (ball : Ball) (l : List Brick) (k0 k : Nat) (b : Brick)
    (hk : l[k]? = some b) (hb : brickIsHit ball b = true)
    (hfirst : ∀ j c, j < k → l[j]? = some c → brickIsHit ball c = false) :
    findHit ball k0 l = some (k0 + k) := by
  induction l generalizing k0 k with
  | nil => simp at hk
  | cons x xs ih =>
    cases k with
    | zero =>
      simp only [List.getElem?_cons_zero, Option.some.injEq] at hk
      subst hk
      unfold brickIsHit at hb
      simp only [Bool.and_eq_true] at hb
      unfold findHit
      simp [hb.1, hb.2]
    | succ i =>
      simp only [List.getElem?_cons_succ] at hk
      have hx : brickIsHit ball x = false := hfirst 0 x (Nat.succ_pos i) (by simp)
      have hrest : ∀ j c, j < i → xs[j]? = some c → brickIsHit ball c = false := by
        intro j c hj hc
        exact hfirst (j + 1) c (Nat.succ_lt_succ hj) (by simpa using hc)
      have := ih (k0 + 1) i hk hrest
      unfold brickIsHit at hx
      unfold findHit
      cases ha : x.active
      · simp only [Bool.not_false, if_true]
        rw [this]
        congr 1
        omega
      · rw [ha] at hx
        simp only [Bool.true_and] at hx
        simp only [Bool.not_true, Bool.false_eq_true, if_false, hx, Bool.not_false, if_true]
        rw [this]
        congr 1
        omega

theorem bounceOffBrick_velocity (ball : Ball) (b : Brick) :
    (sideIsNearest ball b →
      (bounceOffBrick ball b).velocity = ⟨-ball.velocity.x, ball.velocity.y⟩) ∧
    (¬ sideIsNearest ball b →
      (bounceOffBrick ball b).velocity = ⟨ball.velocity.x, -ball.velocity.y⟩) := by
  constructor
  · intro h
    unfold sideIsNearest overlapLeft overlapRight overlapTop overlapBottom at h
    unfold bounceOffBrick
    dsimp only
    rw [if_pos h]
    show (⟨ball.velocity.x * (-1), ball.velocity.y⟩ : Vector2) = _
    congr 1
    ring
  · intro h
    unfold sideIsNearest overlapLeft overlapRight overlapTop overlapBottom at h
    unfold bounceOffBrick
    dsimp only
    rw [if_neg h]
    have h2 : min (min (ball.position.x + ball.radius - b.rect.x)
          (b.rect.x + b.rect.width - (ball.position.x - ball.radius)))
        (min (ball.position.y + ball.radius - b.rect.y)
          (b.rect.y + b.rect.height - (ball.position.y - ball.radius)))
          = ball.position.y + ball.radius - b.rect.y ∨
        min (min (ball.position.x + ball.radius - b.rect.x)
          (b.rect.x + b.rect.width - (ball.position.x - ball.radius)))
        (min (ball.position.y + ball.radius - b.rect.y)
          (b.rect.y + b.rect.height - (ball.position.y - ball.radius)))
          = b.rect.y + b.rect.height - (ball.position.y - ball.radius) := by
      rcases min_choice (min (ball.position.x + ball.radius - b.rect.x)
          (b.rect.x + b.rect.width - (ball.position.x - ball.radius)))
        (min (ball.position.y + ball.radius - b.rect.y)
          (b.rect.y + b.rect.height - (ball.position.y - ball.radius))) with h1 | h1
      · exfalso
        apply h
        rcases min_choice (ball.position.x + ball.radius - b.rect.x)
          (b.rect.x + b.rect.width - (ball.position.x - ball.radius)) with h3 | h3
        · left; rw [h1, h3]
        · right; rw [h1, h3]
      · rcases min_choice (ball.position.y + ball.radius - b.rect.y)
          (b.rect.y + b.rect.height - (ball.position.y - ball.radius)) with h3 | h3
        · left; rw [h1, h3]
        · right; rw [h1, h3]
    rw [if_pos h2]
    show (⟨ball.velocity.x, ball.velocity.y * (-1)⟩ : Vector2) = _
    congr 1
    ring

/-- C16: when some active brick intersects the ball circle,
`HandleBricksCollision` returns `true` and destroys the first such brick in
row-major order (`active` cleared, `fade` 0), leaves the ball position
unchanged and negates exactly one velocity component: `velocity.x` when the
smallest of the four overlaps is the left or the right one (ties go to x),
otherwise `velocity.y`. When no active brick intersects, it returns `false`
and changes nothing. -/
theorem first_hit_brick_is_destroyed (rand : Nat → Nat) (t : Game) :
    (∀ (k : Nat) (b : Brick), t.bricks[k]? = some b → brickIsHit t.ball b = true →
      (∀ j c, j < k → t.bricks[j]? = some c → brickIsHit t.ball c = false) →
      (HandleBricksCollision rand t).2 = true ∧
      (HandleBricksCollision rand t).1.bricks = t.bricks.set k { b with active := false, fade := 0 } ∧
      (HandleBricksCollision rand t).1.ball.position = t.ball.position ∧
      (sideIsNearest t.ball b →
        (HandleBricksCollision rand t).1.ball.velocity = ⟨-t.ball.velocity.x, t.ball.velocity.y⟩) ∧
      (¬ sideIsNearest t.ball b →
        (HandleBricksCollision rand t).1.ball.velocity = ⟨t.ball.velocity.x, -t.ball.velocity.y⟩)) ∧
    ((∀ b ∈ t.bricks, brickIsHit t.ball b = false) → HandleBricksCollision rand t = (t, false)) := by
  constructor
  · intro k b hk hb hfirst
    have hf := findHit_first t.ball t.bricks 0 k b hk hb hfirst
    rw [Nat.zero_add] at hf
    have e : HandleBricksCollision rand t
        = (DestroyBrick rand k { t with ball := bounceOffBrick t.ball b }, true) := by
      unfold HandleBricksCollision
      rw [hf]
      dsimp only
      rw [hk]
    obtain ⟨d1, _, _, _, _, d6, _⟩ :=
      destroyBrick_fields rand k { t with ball := bounceOffBrick t.ball b } b hk
    have hv := bounceOffBrick_velocity t.ball b
    rw [e]
    refine ⟨rfl, d1, ?_, ?_, ?_⟩
    · show (DestroyBrick rand k { t with ball := bounceOffBrick t.ball b }).ball.position = _
      rw [d6]
      exact bounceOffBrick_position t.ball b
    · intro hs
      show (DestroyBrick rand k { t with ball := bounceOffBrick t.ball b }).ball.velocity = _
      rw [d6]
      exact hv.1 hs
    · intro hs
      show (DestroyBrick rand k { t with ball := bounceOffBrick t.ball b }).ball.velocity = _
      rw [d6]
      exact hv.2 hs
  · intro h
    unfold HandleBricksCollision
    rw [findHit_none t.ball t.bricks 0 h]

theorem lastBrickState_brick :
    lastBrickState.bricks[22]? = some { initBrick 4 2 with fade := 1 } ∧
    brickIsHit lastBrickState.ball { initBrick 4 2 with fade := 1 } = true ∧
    (∀ j c, j < 22 → lastBrickState.bricks[j]? = some c → brickIsHit lastBrickState.ball c = false) := by
  refine ⟨by decide!, by decide!, ?_⟩
  intro j c hj hc
  have hact : ∀ j, j < 22 → ∀ c, lastBrickState.bricks[j]? = some c → c.active = false := by
    decide!
  unfold brickIsHit
  rw [hact j hj c hc]
  rfl

/-- Witness of C16: the ball below the only brick left, row 4, column 2. -/
theorem first_hit_brick_is_destroyed_witness :
    lastBrickState.bricks[22]? = some { initBrick 4 2 with fade := 1 } ∧
    brickIsHit lastBrickState.ball { initBrick 4 2 with fade := 1 } = true ∧
    (HandleBricksCollision noKey.rand lastBrickState).2 = true ∧
    (HandleBricksCollision noKey.rand lastBrickState).1.ball.position = lastBrickState.ball.position :=
  ⟨lastBrickState_brick.1, lastBrickState_brick.2.1,
    ((first_hit_brick_is_destroyed noKey.rand lastBrickState).1 22 _ lastBrickState_brick.1
      lastBrickState_brick.2.1 lastBrickState_brick.2.2).1,
    ((first_hit_brick_is_destroyed noKey.rand lastBrickState).1 22 _ lastBrickState_brick.1
      lastBrickState_brick.2.1 lastBrickState_brick.2.2).2.2.1⟩

/-! ## Particles are visual only -/

theorem core_eq_iff (s t : Game) : core s = core t ↔ sameButParticles s t := by
  unfold core sameButParticles
  constructor
  · intro h
    injection h with h1 h2 h3 h4 h5 h6 h7 h8 h9 h10 h11
    exact ⟨h1, h6, h7, h10, h9, h8, h5, h4, h3⟩
  · intro ⟨h1, h6, h7, h10, h9, h8, h5, h4, h3⟩
    rw [h1, h6, h7, h10, h9, h8, h5, h4, h3]

/-- An operation whose effect outside the pool does not depend on the pool
maps states that agree outside the pool to states that agree outside the
pool. -/
theorem core_congr (f g : Game → Game) (hf : ∀ u, core (f u) = core (g (core u)))
    (hg : ∀ u, core (g u) = core (g (core u))) (u v : Game) (h : core u = core v) :
    core (f u) = core (g v) := by
  rw [hf u, hg v, h]

theorem core_arrow (a b : FrameInput) (hk : sameKeys a b) (u : Game) :
    core (HandleArrowKeysPressed a u) = core (HandleArrowKeysPressed b (core u)) := by
  unfold HandleArrowKeysPressed
  rw [hk.1, hk.2.1]
  unfold core
  dsimp only
  split <;> split <;> rfl

theorem core_space (a b : FrameInput) (hk : sameKeys a b) (u : Game) :
    core (HandleSpaceKeyPressed a u) = core (HandleSpaceKeyPressed b (core u)) := by
  unfold HandleSpaceKeyPressed
  rw [hk.2.2]
  split
  · show core (match u.gameState with
        | GameState.Init => _ | GameState.Running => _ | GameState.GameOver => _) =
      core (match u.gameState with
        | GameState.Init => _ | GameState.Running => _ | GameState.GameOver => _)
    cases u.gameState <;> rfl
  · rfl

theorem core_fade (u : Game) : core (HandleBricksFade u) = core (HandleBricksFade (core u)) := rfl

theorem core_particles (dt dt2 : ℚ) (u : Game) :
    core (UpdateParticles dt u) = core (UpdateParticles dt2 (core u)) := rfl

theorem core_bottom (u : Game) :
    core (HandleBottomCollision u) = core (HandleBottomCollision (core u)) := by
  unfold HandleBottomCollision
  dsimp only
  show core (if u.lives > 1 then _ else _) = core (if u.lives > 1 then _ else _)
  split <;> rfl

theorem core_borders (u : Game) :
    core (HandleBordersCollision u).1 = core (HandleBordersCollision (core u)).1 ∧
    (HandleBordersCollision u).2 = (HandleBordersCollision (core u)).2 := by
  have e1 : HandleBordersCollision u
      = if (bounceOffWalls u.ball).position.y > HEIGHT - BALL_RADIUS then
          (HandleBottomCollision { u with ball := bounceOffWalls u.ball }, true)
        else ({ u with ball := bounceOffWalls u.ball }, false) := rfl
  have e2 : HandleBordersCollision (core u)
      = if (bounceOffWalls u.ball).position.y > HEIGHT - BALL_RADIUS then
          (HandleBottomCollision { core u with ball := bounceOffWalls u.ball }, true)
        else ({ core u with ball := bounceOffWalls u.ball }, false) := rfl
  rw [e1, e2]
  split
  · exact ⟨core_bottom _, rfl⟩
  · exact ⟨rfl, rfl⟩

theorem core_bar (u : Game) : core (HandleBarCollision u) = core (HandleBarCollision (core u)) := by
  unfold HandleBarCollision
  show core (if (!CheckCollisionCircleRec u.ball.position u.ball.radius u.bar) = true then _ else _)
    = core (if (!CheckCollisionCircleRec u.ball.position u.ball.radius u.bar) = true then _ else _)
  split <;> rfl

theorem core_destroy (r1 r2 : Nat → Nat) (k : Nat) (u : Game) :
    core (DestroyBrick r1 k u) = core (DestroyBrick r2 k (core u)) := by
  unfold DestroyBrick
  show core (match u.bricks[k]? with | none => _ | some brick => _)
    = core (match u.bricks[k]? with | none => _ | some brick => _)
  cases u.bricks[k]? <;> rfl

theorem core_bricks (r1 r2 : Nat → Nat) (u : Game) :
    core (HandleBricksCollision r1 u).1 = core (HandleBricksCollision r2 (core u)).1 ∧
    (HandleBricksCollision r1 u).2 = (HandleBricksCollision r2 (core u)).2 := by
  rcases bricksCollision_cases r1 u with h | ⟨h, k, b, hk, _, hf, heq⟩
  · have hf : findHit u.ball 0 u.bricks = none := by
      unfold HandleBricksCollision at h
      cases hfind : findHit u.ball 0 u.bricks with
      | none => rfl
      | some k =>
        obtain ⟨_, b, hb, _, _⟩ := findHit_spec u.ball u.bricks 0 k hfind
        simp only [Nat.sub_zero] at hb
        rw [hfind] at h
        dsimp only at h
        rw [hb] at h
        exact absurd h.1 Bool.noConfusion
    have e2 : HandleBricksCollision r2 (core u) = (core u, false) := by
      unfold HandleBricksCollision
      show (match findHit u.ball 0 u.bricks with
        | none => (core u, false)
        | some k => _) = _
      rw [hf]
    rw [h.2, h.1, e2]
    exact ⟨rfl, rfl⟩
  · have e2 : HandleBricksCollision r2 (core u)
        = (DestroyBrick r2 k { core u with ball := bounceOffBrick u.ball b }, true) := by
      unfold HandleBricksCollision
      show (match findHit u.ball 0 u.bricks with
        | none => (core u, false)
        | some k =>
          match u.bricks[k]? with
          | none => (core u, false)
          | some brick =>
            (DestroyBrick r2 k { core u with ball := bounceOffBrick u.ball brick }, true)) = _
      rw [hf]
      dsimp only
      rw [hk]
    rw [heq, h, e2]
    exact ⟨core_destroy r1 r2 k _, rfl⟩

theorem core_level (u : Game) : core (CheckForNextLevel u) = core (CheckForNextLevel (core u)) := by
  unfold CheckForNextLevel
  show core (if u.bricksLeft = 0 then _ else _) = core (if u.bricksLeft = 0 then _ else _)
  split <;> rfl

theorem core_move (u : Game) : core (moveBall u) = core (moveBall (core u)) := rfl

theorem core_gameState (u v : Game) (h : core u = core v) : u.gameState = v.gameState :=
  ((core_eq_iff u v).mp h).1

theorem congr_borders (u v : Game) (h : core u = core v) :
    core (HandleBordersCollision u).1 = core (HandleBordersCollision v).1 ∧
    (HandleBordersCollision u).2 = (HandleBordersCollision v).2 := by
  have a := core_borders u
  have b := core_borders v
  rw [h] at a
  exact ⟨a.1.trans b.1.symm, a.2.trans b.2.symm⟩

theorem congr_bricks (r1 r2 : Nat → Nat) (u v : Game) (h : core u = core v) :
    core (HandleBricksCollision r1 u).1 = core (HandleBricksCollision r2 v).1 ∧
    (HandleBricksCollision r1 u).2 = (HandleBricksCollision r2 v).2 := by
  have a := core_bricks r1 r2 u
  have b := core_bricks r2 r2 v
  rw [h] at a
  exact ⟨a.1.trans b.1.symm, a.2.trans b.2.symm⟩

theorem congr_afterKeys (a b : FrameInput) (hk : sameKeys a b) (u v : Game) (h : core u = core v) :
    core (afterKeys a u) = core (afterKeys b v) := by
  have h1 : core (HandleArrowKeysPressed a u) = core (HandleArrowKeysPressed b v) :=
    core_congr _ _ (core_arrow a b hk) (core_arrow b b ⟨rfl, rfl, rfl⟩) u v h
  have h2 : core (HandleSpaceKeyPressed a (HandleArrowKeysPressed a u))
      = core (HandleSpaceKeyPressed b (HandleArrowKeysPressed b v)) :=
    core_congr _ _ (core_space a b hk) (core_space b b ⟨rfl, rfl, rfl⟩) _ _ h1
  have hg := core_gameState _ _ h2
  unfold afterKeys
  dsimp only
  rw [hg]
  split
  · exact core_congr _ _ core_fade core_fade _ _ h2
  · exact h2

/-- The state after a frame, outside the pool, is determined by the state
before the frame outside the pool and by the keys. -/
theorem congr_frame (a b : FrameInput) (hk : sameKeys a b) (u v : Game) (h : core u = core v) :
    core (UpdateGameFrame a u) = core (UpdateGameFrame b v) := by
  have hA := congr_afterKeys a b hk u v h
  have hgA := core_gameState _ _ hA
  have hP : core (UpdateParticles a.frameTime (afterKeys a u))
      = core (UpdateParticles b.frameTime (afterKeys b v)) :=
    core_congr _ _ (core_particles a.frameTime b.frameTime)
      (core_particles b.frameTime b.frameTime) _ _ hA
  have hB : core (afterBorders a u).1 = core (afterBorders b v).1 ∧
      (afterBorders a u).2 = (afterBorders b v).2 := congr_borders _ _ hP
  have hBar : core (HandleBarCollision (afterBorders a u).1)
      = core (HandleBarCollision (afterBorders b v).1) :=
    core_congr _ _ core_bar core_bar _ _ hB.1
  have hBr : core (afterBricks a u).1 = core (afterBricks b v).1 ∧
      (afterBricks a u).2 = (afterBricks b v).2 := congr_bricks a.rand b.rand _ _ hBar
  rw [frame_eq, frame_eq, hgA, hB.2, hBr.2]
  split
  · split
    · exact hB.1
    · split
      · exact core_congr _ _ core_level core_level _ _ hBr.1
      · exact core_congr _ _ core_move core_move _ _ hBr.1
  · exact hA

/-- C17: particles are visual only. For two states that agree on everything
except the particle pool and two frame inputs that agree on the keys (frame
time and random values may differ), the states after one frame update agree
again on everything except the particle pool: game state, score, level,
lives, speedIncrement, bricksLeft, ball, paddle and bricks. -/
theorem particles_do_not_interfere (a b : FrameInput) (s t : Game)
    (hs : sameButParticles s t) (hk : sameKeys a b) :
    sameButParticles (UpdateGameFrame a s) (UpdateGameFrame b t) :=
  (core_eq_iff _ _).mp (congr_frame a b hk s t ((core_eq_iff s t).mpr hs))

/-- Witness of C17: the frame that destroys the last brick of
`lastBrickState`, once with an empty pool, frame time 1/100 and `rand()`
returning 0, once with a full pool, frame time 1/2 and `rand()` returning 7. -/
theorem particles_do_not_interfere_witness :
    sameButParticles lastBrickState { lastBrickState with particles := samplePool } ∧
    sameKeys noKey { noKey with frameTime := 1 / 2, rand := fun _ => 7 } ∧
    sameButParticles (UpdateGameFrame noKey lastBrickState)
      (UpdateGameFrame { noKey with frameTime := 1 / 2, rand := fun _ => 7 }
        { lastBrickState with particles := samplePool }) :=
  ⟨⟨rfl, rfl, rfl, rfl, rfl, rfl, rfl, rfl, rfl⟩, ⟨rfl, rfl, rfl⟩,
    particles_do_not_interfere noKey { noKey with frameTime := 1 / 2, rand := fun _ => 7 }
      lastBrickState { lastBrickState with particles := samplePool }
      ⟨rfl, rfl, rfl, rfl, rfl, rfl, rfl, rfl, rfl⟩ ⟨rfl, rfl, rfl⟩⟩

/-! ## The fade of the bricks -/

theorem fadeOk_all_of_bricks_eq (s t : Game) (hb : t.bricks = s.bricks)
    (h : ∀ b ∈ s.bricks, fadeOk b) : ∀ b ∈ t.bricks, fadeOk b := by
  rw [hb]; exact h

theorem levelOk_of_eq (s t : Game) (hl : t.level = s.level)
    (hs : t.speedIncrement = s.speedIncrement) (h : levelOk s) : levelOk t := by
  unfold levelOk at *
  rw [hl, hs]
  exact h

theorem levelOk_arrow (inp : FrameInput) (s : Game) (h : levelOk s) :
    levelOk (HandleArrowKeysPressed inp s) := by
  obtain ⟨x, hx⟩ := arrow_eq inp s
  rw [hx]
  exact levelOk_of_eq s _ rfl rfl h

theorem levelOk_space (inp : FrameInput) (s : Game) (h : levelOk s) :
    levelOk (HandleSpaceKeyPressed inp s) := by
  unfold HandleSpaceKeyPressed
  split
  · split
    · exact levelOk_of_eq s _ rfl rfl h
    · exact h
    · constructor
      · show (1 : Int) ≤ 1
        decide
      · show (0 : Int) = 1 - 1
        decide
  · exact h

theorem levelOk_bottom (s : Game) (h : levelOk s) : levelOk (HandleBottomCollision s) := by
  unfold HandleBottomCollision
  dsimp only
  split
  · exact levelOk_of_eq s _ rfl rfl h
  · exact levelOk_of_eq s _ rfl rfl h

theorem levelOk_borders (s : Game) (h : levelOk s) : levelOk (HandleBordersCollision s).1 := by
  unfold HandleBordersCollision
  dsimp only
  generalize bounceOffWalls s.ball = b3
  split
  · exact levelOk_bottom _ (levelOk_of_eq s _ rfl rfl h)
  · exact levelOk_of_eq s _ rfl rfl h

theorem levelOk_bar (s : Game) (h : levelOk s) : levelOk (HandleBarCollision s) := by
  unfold HandleBarCollision
  split
  · exact h
  · exact levelOk_of_eq s _ rfl rfl h

theorem levelOk_bricks (rand : Nat → Nat) (s : Game) (h : levelOk s) :
    levelOk (HandleBricksCollision rand s).1 := by
  rcases bricksCollision_cases rand s with hc | ⟨_, k, b, hk, _, _, heq⟩
  · rw [hc.2]; exact h
  · obtain ⟨_, _, _, _, _, _, _, d8, _, d10⟩ :=
      destroyBrick_fields rand k { s with ball := bounceOffBrick s.ball b } b hk
    rw [heq]
    exact levelOk_of_eq s _ d8 d10 h

theorem levelOk_level (s : Game) (h : levelOk s) : levelOk (CheckForNextLevel s) := by
  unfold CheckForNextLevel
  split
  · constructor
    · show 1 ≤ s.level + 1
      have := h.1
      omega
    · show truncToInt ((s.speedIncrement : ℚ) + SPEED_INCREMENT) = s.level + 1 - 1
      rw [truncToInt_add_one, h.2]
      omega
  · exact h

theorem levelOk_init : levelOk InitGame := by
  constructor <;> decide

/-- C20: in every state reachable from `InitGame`, `level >= 1` and
`speedIncrement = level - 1`. -/
theorem speed_increment_is_level_minus_one (s : Game) (h : Reachable s) :
    1 ≤ s.level ∧ s.speedIncrement = s.level - 1 :=
  reachable_induction levelOk levelOk_init
    (frame_preserves levelOk levelOk_arrow levelOk_space
      (fun s h => levelOk_of_eq s _ rfl rfl h) (fun _ s h => levelOk_of_eq s _ rfl rfl h)
      levelOk_borders levelOk_bar levelOk_bricks levelOk_level
      (fun s h => levelOk_of_eq s _ rfl rfl h)) s h

/-- Witness of C20: the state after three lost balls. -/
theorem speed_increment_is_level_minus_one_witness :
    Reachable gameOverState ∧ 1 ≤ gameOverState.level ∧
    gameOverState.speedIncrement = gameOverState.level - 1 :=
  ⟨gameOverState_reachable, speed_increment_is_level_minus_one gameOverState gameOverState_reachable⟩

/-! ## The fade of the particles -/

theorem reachableAtLeast_reachable (d : ℚ) (s : Game) (h : ReachableAtLeast d s) : Reachable s := by
  induction h with
  | init => exact Reachable.init
  | frame inp s _ _ ih => exact Reachable.frame inp s ih

end Arkanoid
